import Mathlib

/-!
# go-MusicBot: chat commands, HTTP API and YouTube metadata lookup

A shallow embedding of `pkg/bot/commands.go`, `api/api.go` and
`meta/youtube.go`.  Go strings are Lean strings, Go `int` and
`time.Duration` are `Int`, a Go `error` is the text of its message and a
nil error is `none`.  Interfaces whose implementation lives in another
package (the music player, the playlist, the YouTube service, `net/url`)
are records of functions over an abstract state.
-/

set_option linter.dupNamespace false

namespace GoMusicBot

/-! ## The Go library functions the commands use -/

/-- The white space of Go `unicode.IsSpace`. -/
def isSpace (c : Char) : Bool :=
  let n := c.toNat
  (9 ≤ n && n ≤ 13) || n = 32 || n = 0x85 || n = 0xA0 || n = 0x1680 ||
  (0x2000 ≤ n && n ≤ 0x200A) || n = 0x2028 || n = 0x2029 || n = 0x202F ||
  n = 0x205F || n = 0x3000

/-- Go `strings.TrimSpace`: leading and trailing white space removed. -/
def TrimSpace (s : String) : String :=
  String.mk ((s.toList.dropWhile isSpace).reverse.dropWhile isSpace).reverse

/-- Splitting of a character list around a one-character separator into at
most `n` parts, the last part being the unsplit remainder. -/
def splitChars (sep : Char) : Nat → List Char → List (List Char)
  | 0, _ => []
  | 1, s => [s]
  | n + 2, s =>
    match s.span (fun c => c != sep) with
    | (a, []) => [a]
    | (a, _ :: rest) => a :: splitChars sep (n + 1) rest

/-- Go `strings.SplitN(s, sep, n)` for a one-character separator and `n ≥ 0`. -/
def SplitN (s : String) (sep : Char) (n : Nat) : List String :=
  (splitChars sep n s.toList).map String.mk

/-- Value of a non-empty run of decimal digits; `none` on any other input. -/
def parseDigits : List Char → Option Nat
  | [] => none
  | cs => cs.foldl
      (fun acc c => acc.bind fun n => if c.isDigit then some (n * 10 + (c.toNat - 48)) else none)
      (some 0)

/-- Go `strconv.Atoi` on a 64-bit platform: an optional sign and decimal
digits, within the range of `int`; `none` is a non-nil error. -/
def Atoi (s : String) : Option Int :=
  match s.toList with
  | [] => none
  | c :: cs =>
    let neg := c = '-'
    let ds := if c = '-' ∨ c = '+' then cs else c :: cs
    match parseDigits ds with
    | none => none
    | some n =>
      let v : Int := if neg then -(n : Int) else (n : Int)
      if -(2 : Int) ^ 63 ≤ v ∧ v < (2 : Int) ^ 63 then some v else none

/-- The verb `%d` of `fmt.Sprintf` on an `int`. -/
def fmtD (v : Int) : String := toString v

/-! ## pkg/bot: messages, the player interface, the trace of a command -/

/-- Kind of a song (`music.SongType`). -/
inductive SongType
  | SongTypeSong
  | SongTypeStream
  deriving DecidableEq, Repr

/-- The fields of `music.Song` that the commands read; a duration is in
nanoseconds. -/
structure Song where
  Path : String := ""
  Artist : String := ""
  Name : String := ""
  Duration : Int := 0
  SongType : SongType := SongType.SongTypeSong
  deriving DecidableEq, Repr

structure Sender where
  Name : String
  deriving DecidableEq, Repr

structure Message where
  Message : String
  IsPrivate : Bool
  Sender : Sender
  deriving DecidableEq, Repr

/-- What a command does, in order: the lines it sends and the player
operations it invokes. -/
inductive Event
  | reply (text : String)
  | broadcast (text : String)
  | callSearch (query : String)
  | callAddSong (song : Song)
  | callNext
  | callPause
  | callPlay
  | callGetCurrentSong
  | callFlush
  | callShuffle
  | callGetVolume
  | callIncreaseVolume (delta : Int)
  | callDecreaseVolume (delta : Int)
  | callSetVolume (volume : Int)
  deriving DecidableEq, Repr

/-- The `music.Player` the bot drives (with its queue), over a player
state `σ`; an error is `some text`. -/
structure MusicPlayer (σ : Type) where
  Search : String → σ → (List Song × Option String) × σ
  AddSong : Song → σ → (Song × Option String) × σ
  Next : σ → Option String × σ
  Pause : σ → Option String × σ
  Play : σ → Option String × σ
  GetCurrentSong : σ → (Option Song × Int) × σ
  Flush : σ → σ
  Shuffle : σ → σ
  GetVolume : σ → (Int × Option String) × σ
  IncreaseVolume : Int → σ → (Int × Option String) × σ
  DecreaseVolume : Int → σ → (Int × Option String) × σ
  SetVolume : Int → σ → σ

/-- The bot while it runs a command: the state of its player and what
has happened so far. -/
structure MusicBot (σ : Type) where
  musicPlayer : σ
  trace : List Event

variable {σ : Type}

def emit (bot : MusicBot σ) (e : Event) : MusicBot σ :=
  { bot with trace := bot.trace ++ [e] }

def ReplyToMessage (bot : MusicBot σ) (text : String) : MusicBot σ :=
  emit bot (Event.reply text)

def BroadcastMessage (bot : MusicBot σ) (text : String) : MusicBot σ :=
  emit bot (Event.broadcast text)

/-- A player operation with a result: it is logged, then run on the
player state. -/
def invoke {α : Type} (bot : MusicBot σ) (e : Event) (op : σ → α × σ) : α × MusicBot σ :=
  let r := op bot.musicPlayer
  (r.1, { musicPlayer := r.2, trace := bot.trace ++ [e] })

/-- A player operation without a result that the command reads. -/
def invoke_ (bot : MusicBot σ) (e : Event) (op : σ → σ) : MusicBot σ :=
  { musicPlayer := op bot.musicPlayer, trace := bot.trace ++ [e] }

/-- The lines broadcast in a trace. -/
def broadcasts (es : List Event) : List String :=
  es.filterMap fun e => match e with
    | Event.broadcast t => some t
    | _ => none

/-- The lines replied in a trace. -/
def replies (es : List Event) : List String :=
  es.filterMap fun e => match e with
    | Event.reply t => some t
    | _ => none

/-- The songs `AddSong` was invoked with in a trace. -/
def addSongCalls (es : List Event) : List Song :=
  es.filterMap fun e => match e with
    | Event.callAddSong s => some s
    | _ => none

/-- The volumes `SetVolume` was invoked with in a trace. -/
def setVolumeCalls (es : List Event) : List Int :=
  es.filterMap fun e => match e with
    | Event.callSetVolume v => some v
    | _ => none

/-! ## pkg/bot/commands.go -/

/-- The words of a message: `strings.SplitN(message.Message, " ", 3)`. -/
def wordsOf (message : Message) : List String :=
  SplitN message.Message ' ' 3

def addedBy (song : Song) (message : Message) : String :=
  song.Artist ++ ": " ++ song.Name ++ " added by " ++ message.Sender.Name

def added (song : Song) : String :=
  song.Artist ++ ": " ++ song.Name ++ " added"

def searchAddCommand (mp : MusicPlayer σ) (bot : MusicBot σ) (message : Message) : MusicBot σ :=
  let words := wordsOf message
  if words.length ≤ 2 then
    ReplyToMessage bot "No song provided"
  else
    let query := TrimSpace (words.getD 2 "")
    let r := invoke bot (Event.callSearch query) (mp.Search query)
    let songs := r.1.1
    let bot := match r.1.2 with
      | some err => ReplyToMessage r.2 ("error: " ++ err)
      | none => r.2
    match songs with
    | [] => ReplyToMessage bot "No song found"
    | song :: _ =>
      let a := invoke bot (Event.callAddSong song) (mp.AddSong song)
      match a.1.2 with
      | some err => ReplyToMessage a.2 ("Error: " ++ err)
      | none =>
        let bot := if message.IsPrivate then BroadcastMessage a.2 (addedBy a.1.1 message) else a.2
        ReplyToMessage bot (added a.1.1)

/-- Go `strings.TrimLeft(s, cutset)` for a one-character cutset. -/
def TrimLeft (s : String) (c : Char) : String :=
  String.mk (s.toList.dropWhile (fun x => x == c))

/-- Go `strings.TrimRight(s, cutset)` for a one-character cutset. -/
def TrimRight (s : String) (c : Char) : String :=
  String.mk (s.toList.reverse.dropWhile (fun x => x == c)).reverse

def sanitizeSong (song : String) : String :=
  let song := TrimSpace song
  let song := TrimLeft song '<'
  let song := TrimRight song '>'
  song

/-- The song `addCommand` asks the player for:
`music.Song{Path: sanitizeSong(words[2])}`. -/
def requestedSong (words : List String) : Song :=
  { Path := sanitizeSong (words.getD 2 "") }

def addCommand (mp : MusicPlayer σ) (bot : MusicBot σ) (message : Message) : MusicBot σ :=
  let words := wordsOf message
  if words.length ≤ 2 then
    ReplyToMessage bot "No song provided"
  else
    let song : Song := requestedSong words
    let a := invoke bot (Event.callAddSong song) (mp.AddSong song)
    match a.1.2 with
    | some err => ReplyToMessage a.2 err
    | none =>
      let bot := if message.IsPrivate then BroadcastMessage a.2 (addedBy a.1.1 message) else a.2
      ReplyToMessage bot (added a.1.1)

def nextCommand (mp : MusicPlayer σ) (bot : MusicBot σ) (message : Message) : MusicBot σ :=
  let r := invoke bot Event.callNext mp.Next
  match r.1 with
  | some err => ReplyToMessage r.2 ("Could not skip song: " ++ err)
  | none =>
    let bot := if message.IsPrivate then
        BroadcastMessage r.2 (message.Sender.Name ++ " skipped the song") else r.2
    ReplyToMessage bot "Skipping song"

def pausedCommand (mp : MusicPlayer σ) (bot : MusicBot σ) (message : Message) : MusicBot σ :=
  let r := invoke bot Event.callPause mp.Pause
  match r.1 with
  | some err => ReplyToMessage r.2 ("Error: " ++ err)
  | none =>
    let bot := if message.IsPrivate then
        BroadcastMessage r.2 (message.Sender.Name ++ " stopped the music") else r.2
    ReplyToMessage bot "Music paused"

def playCommand (mp : MusicPlayer σ) (bot : MusicBot σ) (message : Message) : MusicBot σ :=
  let r := invoke bot Event.callPlay mp.Play
  match r.1 with
  | some err => ReplyToMessage r.2 ("Error: " ++ err)
  | none =>
    let bot := if message.IsPrivate then
        BroadcastMessage r.2 (message.Sender.Name ++ " resumed the music") else r.2
    ReplyToMessage bot "Music resumed"

/-- Go `time.Duration.Round(time.Second)`: to the nearest whole second,
halfway values away from zero, saturating at the ends of `int64`. -/
def roundSecond (d : Int) : Int :=
  let m : Int := 1000000000
  let r := Int.tmod d m
  if d < 0 then
    let r := -r
    if r + r < m then d + r
    else if -(2 : Int) ^ 63 ≤ d - m + r then d - m + r else -(2 : Int) ^ 63
  else
    if r + r < m then d - r
    else if d + m - r < (2 : Int) ^ 63 then d + m - r else (2 : Int) ^ 63 - 1

/-- The command `current`; `dstr` is Go `time.Duration.String`. -/
def currentCommand (dstr : Int → String) (mp : MusicPlayer σ) (bot : MusicBot σ)
    (_message : Message) : MusicBot σ :=
  let r := invoke bot Event.callGetCurrentSong mp.GetCurrentSong
  let durationLeft := r.1.2
  match r.1.1 with
  | none => ReplyToMessage r.2 "Nothing currently playing"
  | some song =>
    if song.SongType = SongType.SongTypeSong then
      ReplyToMessage r.2
        ("Current song: " ++ song.Artist ++ " " ++ song.Name ++ ". " ++ dstr durationLeft ++
          " remaining (" ++ dstr (roundSecond song.Duration) ++ ")")
    else
      ReplyToMessage r.2
        ("Current song: " ++ song.Artist ++ " " ++ song.Name ++
          ". This is a livestream, use the next command to skip")

def flushCommand (mp : MusicPlayer σ) (bot : MusicBot σ) (message : Message) : MusicBot σ :=
  let bot := invoke_ bot Event.callFlush mp.Flush
  let bot := if message.IsPrivate then
      BroadcastMessage bot (message.Sender.Name ++ " flushed the queue") else bot
  ReplyToMessage bot "Queue flushed"

def shuffleCommand (mp : MusicPlayer σ) (bot : MusicBot σ) (message : Message) : MusicBot σ :=
  let bot := invoke_ bot Event.callShuffle mp.Shuffle
  let bot := if message.IsPrivate then
      BroadcastMessage bot (message.Sender.Name ++ " shuffled the queue") else bot
  ReplyToMessage bot "Queue shuffled"

/-- The end of `volCommand`, after the switch. -/
def volDone (bot : MusicBot σ) (message : Message) (volume : Int) : MusicBot σ :=
  let bot := if message.IsPrivate then
      BroadcastMessage bot ("Volume set to " ++ fmtD volume ++ " by " ++ message.Sender.Name)
    else bot
  ReplyToMessage bot ("Volume set to " ++ fmtD volume)

/-- The command `vol`; `none` is the run-time panic of `words[2]` on a
message of one word. -/
def volCommand (mp : MusicPlayer σ) (bot : MusicBot σ) (message : Message) :
    Option (MusicBot σ) :=
  let words := wordsOf message
  if words.length = 2 then
    let r := invoke bot Event.callGetVolume mp.GetVolume
    match r.1.2 with
    | some err => some (ReplyToMessage r.2 ("unable to get volume: " ++ err))
    | none => some (ReplyToMessage r.2 ("Current volume: " ++ fmtD r.1.1))
  else
    match words.get? 2 with
    | none => none
    | some arg =>
      let volumeString := TrimSpace arg
      if volumeString = "++" then
        let r := invoke bot (Event.callIncreaseVolume 10) (mp.IncreaseVolume 10)
        match r.1.2 with
        | some err => some (ReplyToMessage r.2 ("unable to increase volume: " ++ err))
        | none => some (volDone r.2 message r.1.1)
      else if volumeString = "--" then
        let r := invoke bot (Event.callDecreaseVolume 10) (mp.DecreaseVolume 10)
        match r.1.2 with
        | some err => some (ReplyToMessage r.2 ("unable to decrease volume: " ++ err))
        | none => some (volDone r.2 message r.1.1)
      else
        match Atoi (TrimSpace volumeString) with
        | none => some (ReplyToMessage bot (volumeString ++ " is not a valid number"))
        | some volume =>
          if 0 ≤ volume ∧ volume ≤ 100 then
            some (volDone (invoke_ bot (Event.callSetVolume volume) (mp.SetVolume volume))
              message volume)
          else
            some (ReplyToMessage bot (volumeString ++ " is not a valid volume"))

/-! ## Go `float64` arithmetic and `time.Duration`

A finite `float64` is the rational number it denotes.  Every value that
`time.Duration.Minutes` and `time.Duration.Seconds` compute lies between
`2⁻³⁶` and `2⁶⁴` in magnitude or is zero, so only normal numbers occur. -/

/-- Nearest integer to a rational, a halfway case going to the even
neighbour. -/
def roundHalfEven (y : ℚ) : ℤ :=
  let f := ⌊y⌋
  let r := y - f
  if r < 1 / 2 then f else if 1 / 2 < r then f + 1 else if f % 2 = 0 then f else f + 1

/-- The number with 53 significant bits nearest to a positive rational
(round to nearest, ties to even). -/
def roundPos (x : ℚ) : ℚ :=
  let k : ℤ := 52 - Int.log 2 x
  (roundHalfEven (x * 2 ^ k) : ℚ) / 2 ^ k

/-- Rounding of an exact result to `float64`. -/
def float64 (x : ℚ) : ℚ :=
  if x = 0 then 0 else if x < 0 then -roundPos (-x) else roundPos x

/-- Go conversion `int(f)` of a `float64`: the fraction is discarded. -/
def truncInt (x : ℚ) : Int :=
  if 0 ≤ x then ⌊x⌋ else ⌈x⌉

/-- Go `time.Duration.Minutes`, on a duration in nanoseconds:
`float64(d / Minute) + float64(d % Minute)/(60*1e9)`. -/
def Minutes (d : Int) : ℚ :=
  let min := Int.tdiv d 60000000000
  let nsec := Int.tmod d 60000000000
  float64 (float64 min + float64 (float64 nsec / 60000000000))

/-- Go `time.Duration.Seconds`:
`float64(d / Second) + float64(d % Second)/1e9`. -/
def Seconds (d : Int) : ℚ :=
  let sec := Int.tdiv d 1000000000
  let nsec := Int.tmod d 1000000000
  float64 (float64 sec + float64 (float64 nsec / 1000000000))

/-- The verb `%02d` of `fmt.Sprintf`: at least two characters, zeros
after the sign. -/
def fmt02d (v : Int) : String :=
  if 0 ≤ v ∧ v < 10 then "0" ++ fmtD v else fmtD v

/-! ## api/api.go -/

/-- The fields of `config.API` that the authenticator reads. -/
structure Configuration where
  Username : String
  Password : String
  deriving DecidableEq, Repr

/-- What the getters of a `playlist.ItemInterface` return. -/
structure PlaylistItem where
  Title : String
  URL : String
  Duration : Int
  deriving DecidableEq, Repr

structure Item where
  Title : String
  Seconds : Int
  SecondsRemaining : Int
  FormattedTime : String
  URL : String
  deriving DecidableEq, Repr

structure Status where
  Status : String
  Current : Option Item
  List : List Item
  deriving DecidableEq, Repr

/-- A value written to the response: the text of `http.Error` or the
value handed to the JSON encoder. -/
inductive Payload
  | text (s : String)
  | item (i : Option Item)
  | items (l : List Item)
  | status (s : Status)
  deriving DecidableEq, Repr

/-- An `http.ResponseWriter`: the header map, the status line once it is
written, what was written to the body, and whether writing to the
connection fails. -/
structure ResponseWriter where
  header : List (String × String)
  status : Option Nat
  body : List Payload
  failing : Bool
  deriving DecidableEq, Repr

/-- The parts of an `http.Request` the API reads: the outcome of
`r.BasicAuth()` (`none` when it reports `ok = false`) and the query
values of the URL. -/
structure Request where
  basicAuth : Option (String × String)
  query : List (String × String)
  deriving DecidableEq, Repr

/-- Go `r.BasicAuth()`: username, password and `ok`. -/
def BasicAuth (r : Request) : String × String × Bool :=
  match r.basicAuth with
  | some (username, password) => (username, password, true)
  | none => ("", "", false)

/-- Go `url.Values.Get`: the first value of the key, or the empty string. -/
def queryGet (q : List (String × String)) (key : String) : String :=
  match q.find? (fun kv => kv.1 == key) with
  | some kv => kv.2
  | none => ""

def headerSet (w : ResponseWriter) (key value : String) : ResponseWriter :=
  { w with header := (key, value) :: w.header.filter (fun kv => kv.1 != key) }

/-- Go `w.WriteHeader(code)`: the first status written stands. -/
def WriteHeader (w : ResponseWriter) (code : Nat) : ResponseWriter :=
  match w.status with
  | some _ => w
  | none => { w with status := some code }

/-- Go `w.Write`: status 200 is written first when none was, then the
body, unless the connection fails. -/
def Write (w : ResponseWriter) (v : Payload) : Option String × ResponseWriter :=
  let w := WriteHeader w 200
  if w.failing then (some "write failed", w) else (none, { w with body := w.body ++ [v] })

/-- Go `json.NewEncoder(w).Encode(v)`. -/
def Encode (w : ResponseWriter) (v : Payload) : Option String × ResponseWriter :=
  Write w v

/-- Go `http.Error(w, error, code)`. -/
def httpError (w : ResponseWriter) (error : String) (code : Nat) : ResponseWriter :=
  let w := { w with header := w.header.filter (fun kv => kv.1 != "Content-Length") }
  let w := headerSet w "Content-Type" "text/plain; charset=utf-8"
  let w := headerSet w "X-Content-Type-Options" "nosniff"
  let w := WriteHeader w code
  (Write w (Payload.text (error ++ "\n"))).2

/-- The `playlist.ListInterface` behind the API, over a playlist state
`π`; a nil item is `none`. -/
structure ListInterface (π : Type) where
  Play : π → (Option PlaylistItem × Option String) × π
  Pause : π → Option String × π
  Stop : π → Option String × π
  Next : π → (Option PlaylistItem × Option String) × π
  AddItems : String → π → (List (Option PlaylistItem) × Option String) × π
  GetCurrentItem : π → (Option PlaylistItem × Int) × π
  GetItems : π → List (Option PlaylistItem) × π
  GetStatus : π → String × π

/-- An `http.HandlerFunc` of the API: the response and the playlist after
the request; `none` is a run-time panic. -/
abbrev Handler (π : Type) := ResponseWriter → Request → π → Option (ResponseWriter × π)

structure Route (π : Type) where
  Pattern : String
  Method : String
  handler : Handler π

structure API (π : Type) where
  Configuration : Configuration
  playlist : ListInterface π

variable {π : Type}

def authenticator (api : API π) (inner : Handler π) : Handler π :=
  fun w r p =>
    let auth := BasicAuth r
    let username := auth.1
    let password := auth.2.1
    if api.Configuration.Username ≠ username ∨ api.Configuration.Password ≠ password then
      let w := headerSet w "WWW-Authenticate" "Basic realm=\"MusicBot\""
      some (httpError w "401 Unauthorized" 401, p)
    else
      inner w r p

def convertItem (itm : Option PlaylistItem) (remaining : Int) : Option Item :=
  match itm with
  | none => none
  | some itm =>
    let duration := itm.Duration
    let minutes := truncInt (Minutes duration)
    let seconds := truncInt (Seconds duration) - minutes * 60
    some
      { Title := itm.Title
        URL := itm.URL
        Seconds := truncInt (Seconds duration)
        SecondsRemaining := truncInt (Seconds remaining)
        FormattedTime := fmtD minutes ++ ":" ++ fmt02d seconds }

def convertItems (itms : List (Option PlaylistItem)) : List Item :=
  itms.filterMap fun itm => match itm with
    | none => none
    | some i => convertItem (some i) i.Duration

/-- The end of a handler that encodes a value: a failed encoding is
answered with status 500. -/
def encodeOr500 (w : ResponseWriter) (v : Payload) : ResponseWriter :=
  let e := Encode w v
  match e.1 with
  | some _ => WriteHeader e.2 500
  | none => e.2

def StatusHandler (api : API π) : Handler π :=
  fun w _r p =>
    let c := api.playlist.GetCurrentItem p
    let st := api.playlist.GetStatus c.2
    let l := api.playlist.GetItems st.2
    let s : Status :=
      { Status := st.1, Current := convertItem c.1.1 c.1.2, List := convertItems l.1 }
    some (encodeOr500 w (Payload.status s), l.2)

def ListHandler (api : API π) : Handler π :=
  fun w _r p =>
    let l := api.playlist.GetItems p
    some (encodeOr500 w (Payload.items (convertItems l.1)), l.2)

def CurrentHandler (api : API π) : Handler π :=
  fun w _r p =>
    let c := api.playlist.GetCurrentItem p
    some (encodeOr500 w (Payload.item (convertItem c.1.1 c.1.2)), c.2)

def PlayHandler (api : API π) : Handler π :=
  fun w _r p =>
    let r := api.playlist.Play p
    match r.1.2 with
    | some _ => some (WriteHeader w 500, r.2)
    | none =>
      match r.1.1 with
      | none => none
      | some itm => some (encodeOr500 w (Payload.item (convertItem (some itm) itm.Duration)), r.2)

def PauseHandler (api : API π) : Handler π :=
  fun w _r p =>
    let r := api.playlist.Pause p
    match r.1 with
    | some _ => some (WriteHeader w 500, r.2)
    | none => some (w, r.2)

def StopHandler (api : API π) : Handler π :=
  fun w _r p =>
    let r := api.playlist.Stop p
    match r.1 with
    | some _ => some (WriteHeader w 500, r.2)
    | none => some (w, r.2)

def NextHandler (api : API π) : Handler π :=
  fun w _r p =>
    let r := api.playlist.Next p
    match r.1.2 with
    | some _ => some (WriteHeader w 500, r.2)
    | none =>
      match r.1.1 with
      | none => none
      | some itm => some (encodeOr500 w (Payload.item (convertItem (some itm) itm.Duration)), r.2)

def AddHandler (api : API π) : Handler π :=
  fun w r p =>
    let a := api.playlist.AddItems (queryGet r.query "url") p
    match a.1.2 with
    | some _ => some (WriteHeader w 500, a.2)
    | none => some (encodeOr500 w (Payload.items (convertItems a.1.1)), a.2)

def initializeRoutes (api : API π) : List (Route π) :=
  [ { Pattern := "/status", Method := "GET", handler := StatusHandler api },
    { Pattern := "/list", Method := "GET", handler := ListHandler api },
    { Pattern := "/current", Method := "GET", handler := CurrentHandler api },
    { Pattern := "/play", Method := "GET", handler := authenticator api (PlayHandler api) },
    { Pattern := "/pause", Method := "GET", handler := authenticator api (PauseHandler api) },
    { Pattern := "/stop", Method := "GET", handler := authenticator api (StopHandler api) },
    { Pattern := "/next", Method := "GET", handler := authenticator api (NextHandler api) },
    { Pattern := "/add", Method := "GET", handler := authenticator api (AddHandler api) } ]

/-- The router after `Start` registered every route: the handler of the
first route with the pattern and method of the request. -/
def serve (api : API π) (pattern method : String) : Option (Handler π) :=
  ((initializeRoutes api).find? fun rt => rt.Pattern == pattern && rt.Method == method).map
    fun rt => rt.handler

/-- A response writer at the start of a request. -/
def freshWriter (failing : Bool) : ResponseWriter :=
  { header := [], status := none, body := [], failing := failing }

/-! ## meta/youtube.go -/

structure Meta where
  Identifier : String := ""
  Title : String := ""
  Duration : Int := 0
  Source : String := ""
  deriving DecidableEq, Repr

/-- An entry of a `videos.list` response. -/
structure Video where
  Id : String
  Kind : String
  Title : String
  Duration : String
  deriving DecidableEq, Repr

/-- An entry of a `playlistItems.list` response. -/
structure PlaylistEntry where
  Id : String
  Kind : String
  VideoId : String
  deriving DecidableEq, Repr

/-- What `meta/youtube.go` calls outside the repository: `url.Parse`
followed by `Query()`, the two requests to the YouTube service, and the
conversion of an ISO 8601 duration (`duration.FromString` followed by
`ToDuration`, whose error the source only formats and drops). -/
structure YouTube where
  parseQuery : String → Except String (List (String × String))
  videosList : String → Except String (List Video)
  playlistItemsList : String → Except String (List PlaylistEntry)
  toDuration : String → Int

def YTURL (identifier : String) : String :=
  "https://www.youtube.com/watch?v=" ++ identifier

/-- One round of the loop of `GetMetaForIdentifier`. -/
def pickVideo (yt : YouTube) (identifier : String) (found : Meta) (item : Video) : Meta :=
  if item.Id = identifier ∧ item.Kind = "youtube#video" then
    { Identifier := identifier
      Title := item.Title
      Duration := yt.toDuration item.Duration
      Source := YTURL identifier }
  else found

def GetMetaForIdentifier (yt : YouTube) (identifier : String) : Option Meta × Option String :=
  match yt.videosList identifier with
  | Except.error err => (none, some err)
  | Except.ok items => (some (items.foldl (pickVideo yt identifier) {}), none)

def GetMetaForURL (yt : YouTube) (source : String) : Option Meta × Option String :=
  match yt.parseQuery source with
  | Except.error err => (none, some err)
  | Except.ok query =>
    let identifier := queryGet query "v"
    if identifier = "" then (none, none)
    else
      let r := GetMetaForIdentifier yt identifier
      match r.2 with
      | some err => (r.1, some err)
      | none => (r.1, none)

/-- One round of the loop of `GetMetasForPlaylistURL`; the error of the
lookup is a variable of the loop body and is dropped with it. -/
def addEntry (yt : YouTube) (items : List Meta) (item : PlaylistEntry) : List Meta :=
  if item.Kind = "youtube#playlistItem" then
    match GetMetaForIdentifier yt item.VideoId with
    | (some m, none) => items ++ [m]
    | _ => items
  else items

def GetMetasForPlaylistURL (yt : YouTube) (source : String) : List Meta × Option String :=
  match yt.parseQuery source with
  | Except.error err => ([], some err)
  | Except.ok query =>
    let identifier := queryGet query "list"
    if identifier = "" then ([], none)
    else
      match yt.playlistItemsList identifier with
      | Except.error err => ([], some err)
      | Except.ok response => (response.foldl (addEntry yt) [], none)

/-! ## Concrete collaborators

Small in-memory implementations of the interfaces, on which the commands
and handlers are evaluated at concrete inputs. -/

structure PlayerState where
  catalog : List Song
  queue : List Song
  current : Option Song
  volume : Int
  deriving DecidableEq, Repr

/-- A player over a catalog, a queue and a volume. -/
def memPlayer : MusicPlayer PlayerState where
  Search := fun q s => ((s.catalog.filter fun x => x.Name == q, none), s)
  AddSong := fun x s => ((x, none), { s with queue := s.queue ++ [x] })
  Next := fun s => match s.queue with
    | [] => (some "no songs left", { s with current := none })
    | x :: xs => (none, { s with current := some x, queue := xs })
  Pause := fun s => match s.current with
    | none => (some "nothing is playing", s)
    | some _ => (none, s)
  Play := fun s => match s.current with
    | none => (some "nothing to play", s)
    | some _ => (none, s)
  GetCurrentSong := fun s => ((s.current, 90000000000), s)
  Flush := fun s => { s with queue := [] }
  Shuffle := fun s => { s with queue := s.queue.reverse }
  GetVolume := fun s => ((s.volume, none), s)
  IncreaseVolume := fun d s =>
    ((min 100 (s.volume + d), none), { s with volume := min 100 (s.volume + d) })
  DecreaseVolume := fun d s =>
    ((max 0 (s.volume - d), none), { s with volume := max 0 (s.volume - d) })
  SetVolume := fun v s => { s with volume := v }

def songA : Song :=
  { Path := "https://example.org/a", Artist := "Ann", Name := "Aria", Duration := 180000000000 }

def streamB : Song :=
  { Path := "https://example.org/b", Artist := "Bo", Name := "Radio",
    SongType := SongType.SongTypeStream }

/-- A bot whose player has one song queued and one playing. -/
def demoBot : MusicBot PlayerState :=
  { musicPlayer := { catalog := [songA], queue := [songA], current := some songA, volume := 50 }
    trace := [] }

def publicMessage (text : String) : Message :=
  { Message := text, IsPrivate := false, Sender := { Name := "alice" } }

def privateMessage (text : String) : Message :=
  { Message := text, IsPrivate := true, Sender := { Name := "alice" } }

structure PlaylistState where
  items : List PlaylistItem
  current : Option PlaylistItem
  status : String
  deriving DecidableEq, Repr

/-- A playlist over a list of pending items and a current item. -/
def memPlaylist : ListInterface PlaylistState where
  Play := fun s => match s.current with
    | some c => ((some c, none), { s with status := "playing" })
    | none => match s.items with
      | [] => ((none, some "playlist is empty"), s)
      | x :: xs => ((some x, none), { items := xs, current := some x, status := "playing" })
  Pause := fun s => match s.current with
    | some _ => (none, { s with status := "paused" })
    | none => (some "nothing is playing", s)
  Stop := fun s => (none, { s with current := none, status := "stopped" })
  Next := fun s => match s.items with
    | [] => ((none, some "playlist is empty"), { s with current := none, status := "stopped" })
    | x :: xs => ((some x, none), { items := xs, current := some x, status := "playing" })
  AddItems := fun url s =>
    if url = "" then (([], some "no url"), s)
    else (([some { Title := url, URL := url, Duration := 185000000000 }], none),
      { s with items := s.items ++ [{ Title := url, URL := url, Duration := 185000000000 }] })
  GetCurrentItem := fun s => ((s.current, 60000000000), s)
  GetItems := fun s => (s.items.map some, s)
  GetStatus := fun s => (s.status, s)

def trackA : PlaylistItem :=
  { Title := "Aria", URL := "https://example.org/a", Duration := 185000000000 }

/-- A playlist that plays one item and has none pending. -/
def demoPlaylist : PlaylistState :=
  { items := [], current := some trackA, status := "playing" }

/-- An API whose configured username and password are empty. -/
def openAPI : API PlaylistState :=
  { Configuration := { Username := "", Password := "" }, playlist := memPlaylist }

/-- An API with credentials configured. -/
def demoAPI : API PlaylistState :=
  { Configuration := { Username := "dj", Password := "s3cret" }, playlist := memPlaylist }

/-- A request without an `Authorization` header. -/
def anonymousRequest : Request :=
  { basicAuth := none, query := [] }

/-- The mutating endpoints, each with the handler behind it. -/
def mutatingEndpoints (api : API π) : List (String × Handler π) :=
  [ ("/play", PlayHandler api), ("/pause", PauseHandler api), ("/stop", StopHandler api),
    ("/next", NextHandler api), ("/add", AddHandler api) ]

/-- A playlist response of four entries: one whose video cannot be looked
up, one whose video is known, one of another kind, one whose video is not
found. -/
def demoEntries : List PlaylistEntry :=
  [ { Id := "e1", Kind := "youtube#playlistItem", VideoId := "down" },
    { Id := "e2", Kind := "youtube#playlistItem", VideoId := "abc" },
    { Id := "e3", Kind := "youtube#channel", VideoId := "abc" },
    { Id := "e4", Kind := "youtube#playlistItem", VideoId := "gone" } ]

/-- A YouTube service that knows one video, `abc`, fails on the identifier
`down`, and has one playlist, `PL1`. -/
def demoYouTube : YouTube where
  parseQuery := fun s =>
    if s = "https://www.youtube.com/watch" then Except.ok []
    else if s = "https://www.youtube.com/watch?v=abc" then Except.ok [("v", "abc")]
    else if s = "https://www.youtube.com/watch?v=gone" then Except.ok [("v", "gone")]
    else if s = "https://www.youtube.com/playlist?list=PL1" then Except.ok [("list", "PL1")]
    else Except.error "invalid URL"
  videosList := fun identifier =>
    if identifier = "abc" then
      Except.ok [{ Id := "abc", Kind := "youtube#video", Title := "Aria", Duration := "PT3M5S" }]
    else if identifier = "down" then Except.error "youtube request failed"
    else Except.ok []
  playlistItemsList := fun identifier =>
    if identifier = "PL1" then Except.ok demoEntries else Except.error "playlist not found"
  toDuration := fun s => if s = "PT3M5S" then 185000000000 else 0

/-- The metadata `GetMetaForIdentifier` builds from a response item. -/
def metaOf (yt : YouTube) (identifier : String) (item : Video) : Meta :=
  { Identifier := identifier
    Title := item.Title
    Duration := yt.toDuration item.Duration
    Source := YTURL identifier }

/-- The metadata of a playlist entry whose kind is `youtube#playlistItem`
and whose lookup returns no error. -/
def lookedUp (yt : YouTube) (item : PlaylistEntry) : Option Meta :=
  if item.Kind = "youtube#playlistItem" ∧ (GetMetaForIdentifier yt item.VideoId).2 = none then
    (GetMetaForIdentifier yt item.VideoId).1
  else none

/-- Whether a string has no white space at either end, does not begin with
`<` and does not end with `>`. -/
def bareLink (u : String) : Bool :=
  (u.toList.head?.all fun c => !isSpace c && c != '<') &&
    (u.toList.getLast?.all fun c => !isSpace c && c != '>')

/-- The string `u` between `opening` characters `<` and `closing`
characters `>`, with the characters `before` in front of them and the
characters `after` behind them. -/
def wrapLink (before : List Char) (opening : Nat) (u : String) (closing : Nat)
    (after : List Char) : String :=
  String.mk
    (before ++ (List.replicate opening '<' ++ u.toList ++ List.replicate closing '>') ++ after)

/-- A playlist whose `Play` and `Next` return no item and no error when
there is nothing to play. -/
def lenientPlaylist : ListInterface PlaylistState :=
  { memPlaylist with
    Play := fun s => ((s.current, none), s)
    Next := fun s => match s.items with
      | [] => ((none, none), { s with current := none, status := "stopped" })
      | x :: xs => ((some x, none), { items := xs, current := some x, status := "playing" }) }

def lenientAPI : API PlaylistState :=
  { Configuration := { Username := "dj", Password := "s3cret" }, playlist := lenientPlaylist }

/-- A playlist with nothing playing and nothing pending. -/
def emptyPlaylist : PlaylistState :=
  { items := [], current := none, status := "stopped" }

/-- The non-nil items of a result of the playlist. -/
def nonNil (itms : List (Option PlaylistItem)) : List PlaylistItem :=
  itms.filterMap id

/-- An `Item` is the conversion of a playlist item with its whole duration
remaining: it is what `convertItem` returns and carries the title and the
URL of the playlist item. -/
def converts (itm : PlaylistItem) (it : Item) : Prop :=
  convertItem (some itm) itm.Duration = some it ∧ it.Title = itm.Title ∧ it.URL = itm.URL ∧
    it.SecondsRemaining = it.Seconds

/-- The `Item` of `trackA` with its whole duration remaining. -/
def itemA : Item :=
  { Title := "Aria"
    Seconds := 185
    SecondsRemaining := 185
    FormattedTime := "3:05"
    URL := "https://example.org/a" }

/-- The item `memPlaylist` adds for the URL `https://example.org/b`. -/
def trackB : PlaylistItem :=
  { Title := "https://example.org/b", URL := "https://example.org/b", Duration := 185000000000 }

/-- A request to add the URL `https://example.org/b`. -/
def addRequest : Request :=
  { basicAuth := none, query := [("url", "https://example.org/b")] }

/-! ## Properties of the chat commands -/

/-- C1: a `search-add` message that carries a query whose search returns no
candidate is answered "No song found" (after the error line, when the search
also reported an error), `AddSong` is not invoked, and the player is in the
state the search left it in. -/
theorem searchAdd_no_candidate (mp : MusicPlayer σ) (bot : MusicBot σ) (message : Message)
    (hq : 2 < (wordsOf message).length)
    (hs : (mp.Search (TrimSpace ((wordsOf message).getD 2 "")) bot.musicPlayer).1.1 = []) :
    let query := TrimSpace ((wordsOf message).getD 2 "")
    let found := mp.Search query bot.musicPlayer
    let out := searchAddCommand mp bot message
    out.trace = bot.trace ++ Event.callSearch query ::
        ((match found.1.2 with
          | some err => [Event.reply ("error: " ++ err)]
          | none => []) ++ [Event.reply "No song found"]) ∧
      "No song found" ∈ replies out.trace ∧
      addSongCalls out.trace = addSongCalls bot.trace ∧
      out.musicPlayer = found.2 := by
  have hlen : ¬ (wordsOf message).length ≤ 2 := by omega
  have key : (searchAddCommand mp bot message).trace = bot.trace ++
      Event.callSearch (TrimSpace ((wordsOf message).getD 2 "")) ::
        ((match (mp.Search (TrimSpace ((wordsOf message).getD 2 "")) bot.musicPlayer).1.2 with
          | some err => [Event.reply ("error: " ++ err)]
          | none => []) ++ [Event.reply "No song found"]) := by
    simp only [searchAddCommand, if_neg hlen, invoke, hs]
    cases (mp.Search (TrimSpace ((wordsOf message).getD 2 "")) bot.musicPlayer).1.2 <;>
      simp [ReplyToMessage, emit]
  refine ⟨key, ?_, ?_, ?_⟩
  · rw [key]
    cases (mp.Search (TrimSpace ((wordsOf message).getD 2 "")) bot.musicPlayer).1.2 <;>
      simp [replies]
  · rw [key]
    cases (mp.Search (TrimSpace ((wordsOf message).getD 2 "")) bot.musicPlayer).1.2 <;>
      simp [addSongCalls]
  · simp only [searchAddCommand, if_neg hlen, invoke, hs]
    cases (mp.Search (TrimSpace ((wordsOf message).getD 2 "")) bot.musicPlayer).1.2 <;>
      simp [ReplyToMessage, emit]

/-- The theorem `searchAdd_no_candidate` at a query that matches nothing in
the catalog. -/
theorem searchAdd_no_candidate_witness :
    (searchAddCommand memPlayer demoBot (publicMessage "!music search-add zzz")).trace =
        [Event.callSearch "zzz", Event.reply "No song found"] ∧
      (searchAddCommand memPlayer demoBot (publicMessage "!music search-add zzz")).musicPlayer =
        demoBot.musicPlayer := by
  have h := searchAdd_no_candidate memPlayer demoBot (publicMessage "!music search-add zzz")
    (by decide) (by decide)
  exact ⟨by decide, h.2.2.2⟩

/-- The notification of a command: broadcast when the message is private. -/
theorem trace_notify (bot : MusicBot σ) (message : Message) (line text : String) :
    (ReplyToMessage (if message.IsPrivate then BroadcastMessage bot line else bot) text).trace =
      bot.trace ++ ((if message.IsPrivate then [Event.broadcast line] else []) ++
        [Event.reply text]) := by
  cases message.IsPrivate <;> simp [ReplyToMessage, BroadcastMessage, emit]

theorem player_notify (bot : MusicBot σ) (message : Message) (line text : String) :
    (ReplyToMessage (if message.IsPrivate then BroadcastMessage bot line else bot)
      text).musicPlayer = bot.musicPlayer := by
  cases message.IsPrivate <;> simp [ReplyToMessage, BroadcastMessage, emit]

theorem addCommand_trace (mp : MusicPlayer σ) (bot : MusicBot σ) (message : Message)
    (hq : 2 < (wordsOf message).length)
    (hok : (mp.AddSong (requestedSong (wordsOf message))
      bot.musicPlayer).1.2 = none) :
    (addCommand mp bot message).trace = bot.trace ++
      Event.callAddSong (requestedSong (wordsOf message)) ::
        ((if message.IsPrivate then
            [Event.broadcast (addedBy (mp.AddSong (requestedSong (wordsOf message)) bot.musicPlayer).1.1 message)]
          else []) ++
          [Event.reply (added (mp.AddSong (requestedSong (wordsOf message)) bot.musicPlayer).1.1)]) := by
  have hlen : ¬ (wordsOf message).length ≤ 2 := by omega
  simp only [addCommand, if_neg hlen, invoke, hok, trace_notify]
  simp

theorem searchAddCommand_trace (mp : MusicPlayer σ) (bot : MusicBot σ) (message : Message)
    (song : Song) (rest : List Song)
    (hq : 2 < (wordsOf message).length)
    (hs : (mp.Search (TrimSpace ((wordsOf message).getD 2 "")) bot.musicPlayer).1.1 =
      song :: rest)
    (hok : (mp.AddSong song
      (mp.Search (TrimSpace ((wordsOf message).getD 2 "")) bot.musicPlayer).2).1.2 = none) :
    (searchAddCommand mp bot message).trace = bot.trace ++
      Event.callSearch (TrimSpace ((wordsOf message).getD 2 "")) ::
        ((match (mp.Search (TrimSpace ((wordsOf message).getD 2 "")) bot.musicPlayer).1.2 with
          | some err => [Event.reply ("error: " ++ err)]
          | none => []) ++
        Event.callAddSong song ::
        ((if message.IsPrivate then
            [Event.broadcast (addedBy (mp.AddSong song (mp.Search
              (TrimSpace ((wordsOf message).getD 2 "")) bot.musicPlayer).2).1.1 message)]
          else []) ++
          [Event.reply (added (mp.AddSong song (mp.Search
            (TrimSpace ((wordsOf message).getD 2 "")) bot.musicPlayer).2).1.1)])) := by
  have hlen : ¬ (wordsOf message).length ≤ 2 := by omega
  simp only [searchAddCommand, if_neg hlen, invoke, hs]
  generalize TrimSpace ((wordsOf message).getD 2 "") = query at hs hok ⊢
  cases (mp.Search query bot.musicPlayer).1.2 <;>
    simp only [ReplyToMessage, emit, hok] <;>
    cases message.IsPrivate <;> simp [BroadcastMessage, emit]

theorem nextCommand_trace (mp : MusicPlayer σ) (bot : MusicBot σ) (message : Message)
    (hok : (mp.Next bot.musicPlayer).1 = none) :
    (nextCommand mp bot message).trace = bot.trace ++ Event.callNext ::
      ((if message.IsPrivate then
          [Event.broadcast (message.Sender.Name ++ " skipped the song")] else []) ++
        [Event.reply "Skipping song"]) := by
  simp only [nextCommand, invoke, hok, trace_notify]
  simp

theorem pausedCommand_trace (mp : MusicPlayer σ) (bot : MusicBot σ) (message : Message)
    (hok : (mp.Pause bot.musicPlayer).1 = none) :
    (pausedCommand mp bot message).trace = bot.trace ++ Event.callPause ::
      ((if message.IsPrivate then
          [Event.broadcast (message.Sender.Name ++ " stopped the music")] else []) ++
        [Event.reply "Music paused"]) := by
  simp only [pausedCommand, invoke, hok, trace_notify]
  simp

theorem playCommand_trace (mp : MusicPlayer σ) (bot : MusicBot σ) (message : Message)
    (hok : (mp.Play bot.musicPlayer).1 = none) :
    (playCommand mp bot message).trace = bot.trace ++ Event.callPlay ::
      ((if message.IsPrivate then
          [Event.broadcast (message.Sender.Name ++ " resumed the music")] else []) ++
        [Event.reply "Music resumed"]) := by
  simp only [playCommand, invoke, hok, trace_notify]
  simp

theorem flushCommand_trace (mp : MusicPlayer σ) (bot : MusicBot σ) (message : Message) :
    (flushCommand mp bot message).trace = bot.trace ++ Event.callFlush ::
      ((if message.IsPrivate then
          [Event.broadcast (message.Sender.Name ++ " flushed the queue")] else []) ++
        [Event.reply "Queue flushed"]) := by
  simp only [flushCommand, invoke_, trace_notify]
  simp

theorem shuffleCommand_trace (mp : MusicPlayer σ) (bot : MusicBot σ) (message : Message) :
    (shuffleCommand mp bot message).trace = bot.trace ++ Event.callShuffle ::
      ((if message.IsPrivate then
          [Event.broadcast (message.Sender.Name ++ " shuffled the queue")] else []) ++
        [Event.reply "Queue shuffled"]) := by
  simp only [shuffleCommand, invoke_, trace_notify]
  simp

theorem volDone_trace (bot : MusicBot σ) (message : Message) (volume : Int) :
    (volDone bot message volume).trace = bot.trace ++
      ((if message.IsPrivate then
          [Event.broadcast ("Volume set to " ++ fmtD volume ++ " by " ++ message.Sender.Name)]
        else []) ++ [Event.reply ("Volume set to " ++ fmtD volume)]) := by
  simp only [volDone, trace_notify]

theorem volCommand_increase (mp : MusicPlayer σ) (bot : MusicBot σ) (message : Message)
    (arg : String) (hw : (wordsOf message).get? 2 = some arg) (ha : TrimSpace arg = "++")
    (hok : (mp.IncreaseVolume 10 bot.musicPlayer).1.2 = none) :
    ∃ out, volCommand mp bot message = some out ∧
      out.trace = bot.trace ++ Event.callIncreaseVolume 10 ::
        ((if message.IsPrivate then
            [Event.broadcast ("Volume set to " ++ fmtD (mp.IncreaseVolume 10 bot.musicPlayer).1.1
              ++ " by " ++ message.Sender.Name)]
          else []) ++
          [Event.reply ("Volume set to " ++ fmtD (mp.IncreaseVolume 10 bot.musicPlayer).1.1)]) := by
  have hlen : ¬ (wordsOf message).length = 2 := by
    intro h
    have := List.get?_eq_some.mp hw
    obtain ⟨h2, _⟩ := this
    omega
  have hrun : volCommand mp bot message = some (volDone
      (invoke bot (Event.callIncreaseVolume 10) (mp.IncreaseVolume 10)).2 message
      (mp.IncreaseVolume 10 bot.musicPlayer).1.1) := by
    simp only [volCommand, if_neg hlen, hw, ha, if_true, invoke, hok]
  refine ⟨_, hrun, ?_⟩
  simp [volDone_trace, invoke]

theorem volCommand_decrease (mp : MusicPlayer σ) (bot : MusicBot σ) (message : Message)
    (arg : String) (hw : (wordsOf message).get? 2 = some arg) (ha : TrimSpace arg = "--")
    (hok : (mp.DecreaseVolume 10 bot.musicPlayer).1.2 = none) :
    ∃ out, volCommand mp bot message = some out ∧
      out.trace = bot.trace ++ Event.callDecreaseVolume 10 ::
        ((if message.IsPrivate then
            [Event.broadcast ("Volume set to " ++ fmtD (mp.DecreaseVolume 10 bot.musicPlayer).1.1
              ++ " by " ++ message.Sender.Name)]
          else []) ++
          [Event.reply ("Volume set to " ++ fmtD (mp.DecreaseVolume 10 bot.musicPlayer).1.1)]) := by
  have hlen : ¬ (wordsOf message).length = 2 := by
    intro h
    have := List.get?_eq_some.mp hw
    obtain ⟨h2, _⟩ := this
    omega
  have hne : ¬ ("--" = "++") := by decide
  have hrun : volCommand mp bot message = some (volDone
      (invoke bot (Event.callDecreaseVolume 10) (mp.DecreaseVolume 10)).2 message
      (mp.DecreaseVolume 10 bot.musicPlayer).1.1) := by
    simp only [volCommand, if_neg hlen, hw, ha, if_neg hne, if_true, invoke, hok]
  refine ⟨_, hrun, ?_⟩
  simp [volDone_trace, invoke]

/-- A string that `Atoi` accepts is neither `++` nor `--`. -/
theorem Atoi_not_step (s : String) (v : Int) (h : Atoi (TrimSpace s) = some v) :
    s ≠ "++" ∧ s ≠ "--" := by
  have hp : Atoi (TrimSpace "++") = none := by decide
  have hm : Atoi (TrimSpace "--") = none := by decide
  constructor
  · rintro rfl
    rw [hp] at h
    cases h
  · rintro rfl
    rw [hm] at h
    cases h

theorem volCommand_value (mp : MusicPlayer σ) (bot : MusicBot σ) (message : Message)
    (arg : String) (v : Int) (hw : (wordsOf message).get? 2 = some arg)
    (hv : Atoi (TrimSpace (TrimSpace arg)) = some v) :
    volCommand mp bot message =
      if 0 ≤ v ∧ v ≤ 100 then
        some (volDone (invoke_ bot (Event.callSetVolume v) (mp.SetVolume v)) message v)
      else some (ReplyToMessage bot (TrimSpace arg ++ " is not a valid volume")) := by
  have hlen : ¬ (wordsOf message).length = 2 := by
    intro h
    have := List.get?_eq_some.mp hw
    obtain ⟨h2, _⟩ := this
    omega
  obtain ⟨h1, h2⟩ := Atoi_not_step _ _ hv
  simp only [volCommand, if_neg hlen, hw, if_neg h1, if_neg h2, hv]

/-- Trimming both ends of a list twice is trimming it once. -/
theorem trim_trim {α : Type} (p : α → Bool) (l : List α) :
    (((((l.dropWhile p).reverse.dropWhile p).reverse).dropWhile p).reverse.dropWhile p).reverse =
      ((l.dropWhile p).reverse.dropWhile p).reverse := by
  have hfront : (((l.dropWhile p).reverse.dropWhile p).reverse).dropWhile p =
      ((l.dropWhile p).reverse.dropWhile p).reverse := by
    have hpre : ((l.dropWhile p).reverse.dropWhile p).reverse <+: l.dropWhile p :=
      List.rdropWhile_prefix p (l.dropWhile p)
    have hhead := List.head?_dropWhile_not p l
    cases ht : ((l.dropWhile p).reverse.dropWhile p).reverse with
    | nil => rfl
    | cons a t =>
      rw [ht] at hpre
      obtain ⟨rest, hrest⟩ := hpre
      rw [← hrest] at hhead
      simp only [List.cons_append, List.head?_cons] at hhead
      simp [hhead]
  rw [hfront, List.reverse_reverse, List.dropWhile_idempotent]

theorem TrimSpace_TrimSpace (s : String) : TrimSpace (TrimSpace s) = TrimSpace s := by
  simp only [TrimSpace, String.toList]
  rw [trim_trim]

/-- C2, as the claim states it, fails: `next` succeeds on a message sent to
a shared channel (`IsPrivate` false) and nothing is broadcast. -/
theorem broadcast_public_counterexample :
    (publicMessage "!music next").IsPrivate = false ∧
      (memPlayer.Next demoBot.musicPlayer).1 = none ∧
      (nextCommand memPlayer demoBot (publicMessage "!music next")).trace =
        [Event.callNext, Event.reply "Skipping song"] ∧
      broadcasts (nextCommand memPlayer demoBot (publicMessage "!music next")).trace = [] := by
  decide

/-- C2, amended: each of the commands add, search-add, next, pause, play,
flush, shuffle and vol with an argument, when it succeeds, broadcasts its
notification line exactly when the message is private (`IsPrivate` true) and
broadcasts nothing for a message of a shared channel; in both cases it
replies. -/
theorem broadcast_iff_private (mp : MusicPlayer σ) (bot : MusicBot σ) (message : Message) :
    (2 < (wordsOf message).length →
      (mp.AddSong (requestedSong (wordsOf message)) bot.musicPlayer).1.2 = none →
      broadcasts (addCommand mp bot message).trace = broadcasts bot.trace ++
        (if message.IsPrivate then
          [addedBy (mp.AddSong (requestedSong (wordsOf message)) bot.musicPlayer).1.1 message]
        else []) ∧
      (replies (addCommand mp bot message).trace).getLast? =
        some (added (mp.AddSong (requestedSong (wordsOf message)) bot.musicPlayer).1.1)) ∧
    (∀ song rest, 2 < (wordsOf message).length →
      (mp.Search (TrimSpace ((wordsOf message).getD 2 "")) bot.musicPlayer).1.1 = song :: rest →
      (mp.AddSong song
        (mp.Search (TrimSpace ((wordsOf message).getD 2 "")) bot.musicPlayer).2).1.2 = none →
      broadcasts (searchAddCommand mp bot message).trace = broadcasts bot.trace ++
        (if message.IsPrivate then
          [addedBy (mp.AddSong song (mp.Search (TrimSpace ((wordsOf message).getD 2 ""))
            bot.musicPlayer).2).1.1 message]
        else []) ∧
      (replies (searchAddCommand mp bot message).trace).getLast? =
        some (added (mp.AddSong song (mp.Search (TrimSpace ((wordsOf message).getD 2 ""))
          bot.musicPlayer).2).1.1)) ∧
    ((mp.Next bot.musicPlayer).1 = none →
      broadcasts (nextCommand mp bot message).trace = broadcasts bot.trace ++
        (if message.IsPrivate then [message.Sender.Name ++ " skipped the song"] else []) ∧
      (replies (nextCommand mp bot message).trace).getLast? = some "Skipping song") ∧
    ((mp.Pause bot.musicPlayer).1 = none →
      broadcasts (pausedCommand mp bot message).trace = broadcasts bot.trace ++
        (if message.IsPrivate then [message.Sender.Name ++ " stopped the music"] else []) ∧
      (replies (pausedCommand mp bot message).trace).getLast? = some "Music paused") ∧
    ((mp.Play bot.musicPlayer).1 = none →
      broadcasts (playCommand mp bot message).trace = broadcasts bot.trace ++
        (if message.IsPrivate then [message.Sender.Name ++ " resumed the music"] else []) ∧
      (replies (playCommand mp bot message).trace).getLast? = some "Music resumed") ∧
    (broadcasts (flushCommand mp bot message).trace = broadcasts bot.trace ++
        (if message.IsPrivate then [message.Sender.Name ++ " flushed the queue"] else []) ∧
      (replies (flushCommand mp bot message).trace).getLast? = some "Queue flushed") ∧
    (broadcasts (shuffleCommand mp bot message).trace = broadcasts bot.trace ++
        (if message.IsPrivate then [message.Sender.Name ++ " shuffled the queue"] else []) ∧
      (replies (shuffleCommand mp bot message).trace).getLast? = some "Queue shuffled") ∧
    (∀ arg, (wordsOf message).get? 2 = some arg → TrimSpace arg = "++" →
      (mp.IncreaseVolume 10 bot.musicPlayer).1.2 = none →
      ∃ out, volCommand mp bot message = some out ∧
        broadcasts out.trace = broadcasts bot.trace ++
          (if message.IsPrivate then
            ["Volume set to " ++ fmtD (mp.IncreaseVolume 10 bot.musicPlayer).1.1 ++ " by " ++
              message.Sender.Name]
          else []) ∧
        (replies out.trace).getLast? =
          some ("Volume set to " ++ fmtD (mp.IncreaseVolume 10 bot.musicPlayer).1.1)) ∧
    (∀ arg, (wordsOf message).get? 2 = some arg → TrimSpace arg = "--" →
      (mp.DecreaseVolume 10 bot.musicPlayer).1.2 = none →
      ∃ out, volCommand mp bot message = some out ∧
        broadcasts out.trace = broadcasts bot.trace ++
          (if message.IsPrivate then
            ["Volume set to " ++ fmtD (mp.DecreaseVolume 10 bot.musicPlayer).1.1 ++ " by " ++
              message.Sender.Name]
          else []) ∧
        (replies out.trace).getLast? =
          some ("Volume set to " ++ fmtD (mp.DecreaseVolume 10 bot.musicPlayer).1.1)) ∧
    (∀ arg v, (wordsOf message).get? 2 = some arg → Atoi (TrimSpace arg) = some v →
      0 ≤ v → v ≤ 100 →
      ∃ out, volCommand mp bot message = some out ∧
        broadcasts out.trace = broadcasts bot.trace ++
          (if message.IsPrivate then
            ["Volume set to " ++ fmtD v ++ " by " ++ message.Sender.Name]
          else []) ∧
        (replies out.trace).getLast? = some ("Volume set to " ++ fmtD v)) := by
  refine ⟨?_, ?_, ?_, ?_, ?_, ?_, ?_, ?_, ?_, ?_⟩
  · intro hq hok
    rw [addCommand_trace mp bot message hq hok]
    cases message.IsPrivate <;> simp [broadcasts, replies, List.filterMap_append]
  · intro song rest hq hs hok
    rw [searchAddCommand_trace mp bot message song rest hq hs hok]
    cases (mp.Search (TrimSpace ((wordsOf message).getD 2 "")) bot.musicPlayer).1.2 <;>
      cases message.IsPrivate <;> simp [broadcasts, replies, List.filterMap_append]
  · intro hok
    rw [nextCommand_trace mp bot message hok]
    cases message.IsPrivate <;> simp [broadcasts, replies, List.filterMap_append]
  · intro hok
    rw [pausedCommand_trace mp bot message hok]
    cases message.IsPrivate <;> simp [broadcasts, replies, List.filterMap_append]
  · intro hok
    rw [playCommand_trace mp bot message hok]
    cases message.IsPrivate <;> simp [broadcasts, replies, List.filterMap_append]
  · rw [flushCommand_trace mp bot message]
    cases message.IsPrivate <;> simp [broadcasts, replies, List.filterMap_append]
  · rw [shuffleCommand_trace mp bot message]
    cases message.IsPrivate <;> simp [broadcasts, replies, List.filterMap_append]
  · intro arg hw ha hok
    obtain ⟨out, hrun, htrace⟩ := volCommand_increase mp bot message arg hw ha hok
    refine ⟨out, hrun, ?_⟩
    rw [htrace]
    cases message.IsPrivate <;> simp [broadcasts, replies, List.filterMap_append]
  · intro arg hw ha hok
    obtain ⟨out, hrun, htrace⟩ := volCommand_decrease mp bot message arg hw ha hok
    refine ⟨out, hrun, ?_⟩
    rw [htrace]
    cases message.IsPrivate <;> simp [broadcasts, replies, List.filterMap_append]
  · intro arg v hw hv h0 h100
    have hv2 : Atoi (TrimSpace (TrimSpace arg)) = some v := by rw [TrimSpace_TrimSpace, hv]
    refine ⟨_, (volCommand_value mp bot message arg v hw hv2).trans (if_pos ⟨h0, h100⟩), ?_⟩
    rw [volDone_trace]
    cases message.IsPrivate <;> simp [broadcasts, replies, invoke_, List.filterMap_append]

/-- The theorem `broadcast_iff_private` at a private and at a public `next`
on a player with a queued song. -/
theorem broadcast_iff_private_witness :
    broadcasts (nextCommand memPlayer demoBot (privateMessage "!music next")).trace =
        ["alice skipped the song"] ∧
      broadcasts (nextCommand memPlayer demoBot (publicMessage "!music next")).trace = [] :=
  ⟨((broadcast_iff_private memPlayer demoBot (privateMessage "!music next")).2.2.1
      (by decide)).1,
    ((broadcast_iff_private memPlayer demoBot (publicMessage "!music next")).2.2.1
      (by decide)).1⟩

/-- C3: on a `vol <value>` message whose argument parses as the integer `v`,
a `v` outside `[0,100]` is answered "<value> is not a valid volume" with
`SetVolume` not invoked and the player untouched, and a `v` within
`[0,100]` has `SetVolume` invoked exactly once, with `v`, and is answered
"Volume set to v". -/
theorem vol_value (mp : MusicPlayer σ) (bot : MusicBot σ) (message : Message)
    (arg : String) (v : Int) (hw : (wordsOf message).get? 2 = some arg)
    (hv : Atoi (TrimSpace arg) = some v) :
    ((v < 0 ∨ 100 < v) →
      ∃ out, volCommand mp bot message = some out ∧
        out.trace = bot.trace ++ [Event.reply (TrimSpace arg ++ " is not a valid volume")] ∧
        setVolumeCalls out.trace = setVolumeCalls bot.trace ∧
        out.musicPlayer = bot.musicPlayer) ∧
    ((0 ≤ v ∧ v ≤ 100) →
      ∃ out, volCommand mp bot message = some out ∧
        setVolumeCalls out.trace = setVolumeCalls bot.trace ++ [v] ∧
        out.musicPlayer = mp.SetVolume v bot.musicPlayer ∧
        replies out.trace = replies bot.trace ++ ["Volume set to " ++ fmtD v]) := by
  have hv2 : Atoi (TrimSpace (TrimSpace arg)) = some v := by rw [TrimSpace_TrimSpace, hv]
  have hrun := volCommand_value mp bot message arg v hw hv2
  constructor
  · intro hout
    have hnot : ¬ (0 ≤ v ∧ v ≤ 100) := by omega
    rw [if_neg hnot] at hrun
    refine ⟨_, hrun, ?_, ?_, ?_⟩
    · simp [ReplyToMessage, emit]
    · simp [ReplyToMessage, emit, setVolumeCalls, List.filterMap_append]
    · simp [ReplyToMessage, emit]
  · intro hin
    rw [if_pos hin] at hrun
    refine ⟨_, hrun, ?_, ?_, ?_⟩
    · rw [volDone_trace]
      cases message.IsPrivate <;> simp [setVolumeCalls, invoke_, List.filterMap_append]
    · simp [volDone, player_notify, invoke_]
    · rw [volDone_trace]
      cases message.IsPrivate <;> simp [replies, invoke_, List.filterMap_append]

/-- The theorem `vol_value` at `vol 150` and at `vol 77`. -/
theorem vol_value_witness :
    (∃ out, volCommand memPlayer demoBot (publicMessage "!music vol 150") = some out ∧
        out.trace = [Event.reply "150 is not a valid volume"] ∧
        setVolumeCalls out.trace = [] ∧ out.musicPlayer.volume = 50) ∧
      (∃ out, volCommand memPlayer demoBot (publicMessage "!music vol 77") = some out ∧
        setVolumeCalls out.trace = [77] ∧ out.musicPlayer.volume = 77 ∧
        replies out.trace = ["Volume set to 77"]) := by
  constructor
  · obtain ⟨out, hrun, htrace, hcalls, hplayer⟩ :=
      (vol_value memPlayer demoBot (publicMessage "!music vol 150") "150" 150
        (by decide) (by decide)).1 (by decide)
    exact ⟨out, hrun, htrace, hcalls, by rw [hplayer]; rfl⟩
  · obtain ⟨out, hrun, hcalls, hplayer, hreplies⟩ :=
      (vol_value memPlayer demoBot (publicMessage "!music vol 77") "77" 77
        (by decide) (by decide)).2 (by decide)
    exact ⟨out, hrun, hcalls, by rw [hplayer]; rfl, hreplies⟩

/-- C9: the reply of `current` is "Nothing currently playing" when there is
no current song; for a current song of kind `SongTypeSong` it reports the
remaining time; for a current song of any other kind it says that this is a
livestream, a line in which the remaining time does not occur. -/
theorem current_reply (dstr : Int → String) (mp : MusicPlayer σ) (bot : MusicBot σ)
    (message : Message) :
    ((mp.GetCurrentSong bot.musicPlayer).1.1 = none →
      (currentCommand dstr mp bot message).trace =
        bot.trace ++ [Event.callGetCurrentSong, Event.reply "Nothing currently playing"]) ∧
    (∀ song, (mp.GetCurrentSong bot.musicPlayer).1.1 = some song →
      song.SongType = SongType.SongTypeSong →
      (currentCommand dstr mp bot message).trace =
        bot.trace ++ [Event.callGetCurrentSong,
          Event.reply ("Current song: " ++ song.Artist ++ " " ++ song.Name ++ ". " ++
            dstr (mp.GetCurrentSong bot.musicPlayer).1.2 ++ " remaining (" ++
            dstr (roundSecond song.Duration) ++ ")")]) ∧
    (∀ song, (mp.GetCurrentSong bot.musicPlayer).1.1 = some song →
      song.SongType ≠ SongType.SongTypeSong →
      (currentCommand dstr mp bot message).trace =
        bot.trace ++ [Event.callGetCurrentSong,
          Event.reply ("Current song: " ++ song.Artist ++ " " ++ song.Name ++
            ". This is a livestream, use the next command to skip")]) := by
  refine ⟨?_, ?_, ?_⟩
  · intro hnone
    simp [currentCommand, invoke, hnone, ReplyToMessage, emit]
  · intro song hsome hkind
    simp [currentCommand, invoke, hsome, hkind, ReplyToMessage, emit]
  · intro song hsome hkind
    simp [currentCommand, invoke, hsome, hkind, ReplyToMessage, emit]

/-- The theorem `current_reply` on a player whose current song is a track. -/
theorem current_reply_witness :
    (currentCommand (fun d => fmtD (d / 1000000000) ++ "s") memPlayer demoBot
        (publicMessage "!music current")).trace =
      [Event.callGetCurrentSong, Event.reply "Current song: Ann Aria. 90s remaining (180s)"] :=
  (current_reply (fun d => fmtD (d / 1000000000) ++ "s") memPlayer demoBot
    (publicMessage "!music current")).2.1 songA (by decide) (by decide)

/-! ## Properties of the `float64` arithmetic and of `convertItem` -/

theorem roundHalfEven_near (y : ℚ) : |(roundHalfEven y : ℚ) - y| ≤ 1 / 2 := by
  have h1 := Int.floor_le y
  have h2 := Int.lt_floor_add_one y
  unfold roundHalfEven
  simp only
  rw [abs_le]
  split_ifs with ha hb hc
  · constructor <;> linarith
  · push_cast
    constructor <;> linarith
  · constructor <;> linarith
  · push_cast
    constructor <;> linarith

theorem roundHalfEven_intCast (n : ℤ) : roundHalfEven (n : ℚ) = n := by
  simp [roundHalfEven]

theorem roundPos_near (x : ℚ) (M : ℤ) (hx : 0 < x) (hM : x < 2 ^ M) :
    |roundPos x - x| ≤ 2 ^ (M - 54) := by
  have hlog : Int.log 2 x < M := by
    have := (Int.lt_zpow_iff_log_lt (b := 2) (by norm_num) hx (x := M)).mp (by exact_mod_cast hM)
    exact this
  have hpos : (0 : ℚ) < 2 ^ (52 - Int.log 2 x) := by positivity
  have hnear := roundHalfEven_near (x * 2 ^ (52 - Int.log 2 x))
  have heq : roundPos x - x =
      ((roundHalfEven (x * 2 ^ (52 - Int.log 2 x)) : ℚ) - x * 2 ^ (52 - Int.log 2 x)) /
        2 ^ (52 - Int.log 2 x) := by
    unfold roundPos
    field_simp
    ring
  rw [heq, abs_div, abs_of_pos hpos, div_le_iff₀ hpos]
  refine hnear.trans ?_
  have h54 : (1 : ℚ) / 2 = 2 ^ (Int.log 2 x - 53) * 2 ^ (52 - Int.log 2 x) := by
    rw [← zpow_add₀ (by norm_num : (2 : ℚ) ≠ 0)]
    have : Int.log 2 x - 53 + (52 - Int.log 2 x) = -1 := by ring
    rw [this]
    norm_num
  rw [h54]
  apply mul_le_mul_of_nonneg_right _ hpos.le
  exact zpow_le_zpow_right₀ (by norm_num) (by omega)

theorem roundPos_intCast (n : ℤ) (h0 : 0 < n) (h53 : n < 2 ^ 53) : roundPos (n : ℚ) = n := by
  have hx : (0 : ℚ) < n := by exact_mod_cast h0
  have hlog : Int.log 2 (n : ℚ) < 53 := by
    refine (Int.lt_zpow_iff_log_lt (b := 2) (by norm_num) hx (x := 53)).mp ?_
    have : ((n : ℤ) : ℚ) < ((2 ^ 53 : ℤ) : ℚ) := by exact_mod_cast h53
    norm_num at this ⊢
    exact this
  obtain ⟨m, hm⟩ := Int.eq_ofNat_of_zero_le (show 0 ≤ 52 - Int.log 2 (n : ℚ) by omega)
  unfold roundPos
  simp only
  rw [hm, zpow_natCast]
  have hcast : (n : ℚ) * 2 ^ m = ((n * 2 ^ m : ℤ) : ℚ) := by push_cast; ring
  rw [hcast, roundHalfEven_intCast]
  push_cast
  field_simp

theorem float64_neg (x : ℚ) : float64 (-x) = -float64 x := by
  unfold float64
  rcases lt_trichotomy x 0 with h | h | h
  · have h1 : ¬ (-x = 0) := by intro h'; linarith
    have h2 : ¬ (-x < 0) := by linarith
    have h3 : ¬ (x = 0) := by intro h'; linarith
    simp [h1, h2, h3, h]
  · simp [h]
  · have h1 : ¬ (-x = 0) := by intro h'; linarith
    have h2 : -x < 0 := by linarith
    have h3 : ¬ (x = 0) := by intro h'; linarith
    have h4 : ¬ (x < 0) := by linarith
    simp [h1, h2, h3, h4]

theorem float64_intCast (n : ℤ) (h : |n| < 2 ^ 53) : float64 (n : ℚ) = n := by
  rcases lt_trichotomy n 0 with hn | hn | hn
  · have hm : 0 < -n := by omega
    have hb : -n < 2 ^ 53 := by
      have := abs_lt.mp h
      omega
    have := roundPos_intCast (-n) hm hb
    have hneg : float64 (((-n : ℤ)) : ℚ) = ((-n : ℤ) : ℚ) := by
      unfold float64
      have h1 : ¬ (((-n : ℤ) : ℚ) = 0) := by
        have : (0 : ℚ) < ((-n : ℤ) : ℚ) := by exact_mod_cast hm
        intro h'; linarith
      have h2 : ¬ (((-n : ℤ) : ℚ) < 0) := by
        have : (0 : ℚ) < ((-n : ℤ) : ℚ) := by exact_mod_cast hm
        linarith
      simp only [h1, h2, if_false]
      exact this
    have := float64_neg (n : ℚ)
    push_cast at hneg
    rw [hneg] at this
    linarith
  · subst hn
    simp [float64]
  · have hb : n < 2 ^ 53 := by
      have := abs_lt.mp h
      omega
    have hq : (0 : ℚ) < n := by exact_mod_cast hn
    unfold float64
    have h1 : ¬ ((n : ℚ) = 0) := by intro h'; linarith
    have h2 : ¬ ((n : ℚ) < 0) := by linarith
    simp only [h1, h2, if_false]
    exact roundPos_intCast n hn hb

theorem truncInt_neg (x : ℚ) : truncInt (-x) = -truncInt x := by
  unfold truncInt
  rcases lt_trichotomy x 0 with h | h | h
  · have h1 : (0 : ℚ) ≤ -x := by linarith
    have h2 : ¬ (0 ≤ x) := by linarith
    simp only [h1, h2, if_true, if_false]
    rw [Int.floor_neg]
  · subst h
    simp
  · have h1 : ¬ ((0 : ℚ) ≤ -x) := by linarith
    have h2 : (0 : ℚ) ≤ x := by linarith
    simp only [h1, h2, if_true, if_false]
    rw [Int.ceil_neg]

theorem float64_pos (x : ℚ) (hx : 0 < x) : float64 x = roundPos x := by
  unfold float64
  have h1 : ¬ (x = 0) := by intro h'; linarith
  have h2 : ¬ (x < 0) := by linarith
  simp only [h1, h2, if_false]

/-- The sum `float64(a) + float64(b)/U` of `Minutes` and `Seconds`, with
`0 ≤ a`, `0 ≤ b < U`, truncates to `a` as long as `a` is below `2 ^ N` and
one unit exceeds the two rounding errors. -/
theorem truncInt_sum_nonneg (a b U : ℤ) (N : ℕ) (ha0 : 0 ≤ a) (haN : a < 2 ^ N) (hN : N ≤ 53)
    (hb0 : 0 ≤ b) (hbU : b < U) (hU : U < 2 ^ 53)
    (hmargin : (2 : ℚ) ^ (-54 : ℤ) + 2 ^ ((N : ℤ) - 54) < 1 / U) :
    truncInt (float64 (float64 (a : ℚ) + float64 (float64 (b : ℚ) / U))) = a := by
  have hUpos : (0 : ℚ) < U := by exact_mod_cast (lt_of_le_of_lt hb0 hbU)
  have haN53 : a < 2 ^ 53 := lt_of_lt_of_le haN (pow_le_pow_right₀ (by norm_num) hN)
  have fa : float64 (a : ℚ) = a := float64_intCast a (by rw [abs_of_nonneg ha0]; exact haN53)
  have fb : float64 (b : ℚ) = b :=
    float64_intCast b (by rw [abs_of_nonneg hb0]; exact lt_trans hbU hU)
  have haq : (0 : ℚ) ≤ a := by exact_mod_cast ha0
  rw [fa, fb]
  rcases eq_or_lt_of_le hb0 with hb | hb
  · rw [← hb]
    simp only [Int.cast_zero, zero_div, add_zero]
    have h0 : float64 0 = 0 := by simp [float64]
    rw [h0, add_zero, fa]
    simp [truncInt, haq]
  · have hb1 : (1 : ℚ) ≤ b := by exact_mod_cast hb
    have hbU1 : (b : ℚ) ≤ U - 1 := by
      have : b ≤ U - 1 := by omega
      exact_mod_cast this
    have hxlo : 1 / (U : ℚ) ≤ (b : ℚ) / U := by
      apply div_le_div_of_nonneg_right hb1 hUpos.le
    have hxhi : (b : ℚ) / U ≤ 1 - 1 / U := by
      rw [div_le_iff₀ hUpos]
      field_simp
      linarith
    have hinv : (0 : ℚ) < 1 / U := by positivity
    have hxpos : (0 : ℚ) < (b : ℚ) / U := lt_of_lt_of_le hinv hxlo
    have hp54 : (0 : ℚ) < 2 ^ (-54 : ℤ) := by positivity
    have hpN : (0 : ℚ) < 2 ^ ((N : ℤ) - 54) := by positivity
    have hq := roundPos_near ((b : ℚ) / U) 0 hxpos (by simp only [zpow_zero]; linarith)
    rw [float64_pos _ hxpos]
    have hq' : |roundPos ((b : ℚ) / U) - (b : ℚ) / U| ≤ 2 ^ (-54 : ℤ) := by
      simpa using hq
    rw [abs_le] at hq'
    have hspos : (0 : ℚ) < (a : ℚ) + roundPos ((b : ℚ) / U) := by linarith
    have haN' : (a : ℚ) + 1 ≤ 2 ^ (N : ℤ) := by
      have : a + 1 ≤ 2 ^ N := by omega
      have h2 : ((a + 1 : ℤ) : ℚ) ≤ ((2 ^ N : ℤ) : ℚ) := by exact_mod_cast this
      push_cast at h2
      rw [zpow_natCast]
      exact h2
    have hs := roundPos_near ((a : ℚ) + roundPos ((b : ℚ) / U)) N hspos (by linarith)
    rw [float64_pos _ hspos]
    rw [abs_le] at hs
    have hlo : (a : ℚ) < roundPos ((a : ℚ) + roundPos ((b : ℚ) / U)) := by linarith
    have hhi : roundPos ((a : ℚ) + roundPos ((b : ℚ) / U)) < (a : ℚ) + 1 := by linarith
    unfold truncInt
    rw [if_pos (by linarith)]
    rw [Int.floor_eq_iff]
    exact ⟨hlo.le, hhi⟩

/-- The same sum for a quotient and a remainder of either sign (they have
the sign of the dividend). -/
theorem truncInt_sum (a b U : ℤ) (N : ℕ) (haN : |a| < 2 ^ N) (hN : N ≤ 53)
    (hbU : |b| < U) (hU : U < 2 ^ 53) (hsign : (0 ≤ a ∧ 0 ≤ b) ∨ (a ≤ 0 ∧ b ≤ 0))
    (hmargin : (2 : ℚ) ^ (-54 : ℤ) + 2 ^ ((N : ℤ) - 54) < 1 / U) :
    truncInt (float64 (float64 (a : ℚ) + float64 (float64 (b : ℚ) / U))) = a := by
  rcases hsign with ⟨ha, hb⟩ | ⟨ha, hb⟩
  · exact truncInt_sum_nonneg a b U N ha (by rwa [abs_of_nonneg ha] at haN) hN hb
      (by rwa [abs_of_nonneg hb] at hbU) hU hmargin
  · have h := truncInt_sum_nonneg (-a) (-b) U N (by omega)
      (by rwa [abs_of_nonpos ha] at haN) hN (by omega) (by rwa [abs_of_nonpos hb] at hbU)
      hU hmargin
    have hflip : float64 (float64 ((-a : ℤ) : ℚ) + float64 (float64 ((-b : ℤ) : ℚ) / U)) =
        -float64 (float64 (a : ℚ) + float64 (float64 (b : ℚ) / U)) := by
      push_cast
      rw [float64_neg (a : ℚ), float64_neg (b : ℚ), neg_div, float64_neg, ← neg_add, float64_neg]
    rw [hflip, truncInt_neg] at h
    omega

/-- Quotient and remainder of the truncated division by a positive
literal, through the floor division of the absolute value. -/
theorem tdiv_tmod_cases (d U : ℤ) (hU : 0 < U) :
    (0 ≤ d ∧ Int.tdiv d U = d / U ∧ Int.tmod d U = d % U) ∨
      (d < 0 ∧ Int.tdiv d U = -((-d) / U) ∧ Int.tmod d U = -((-d) % U)) := by
  rcases le_or_lt 0 d with h | h
  · exact Or.inl ⟨h, Int.tdiv_eq_ediv h hU.le, Int.tmod_eq_emod h hU.le⟩
  · have hdiv : Int.tdiv d U = -((-d) / U) := by
      have h1 : Int.tdiv (-(-d)) U = -(Int.tdiv (-d) U) := Int.neg_tdiv (-d) U
      rw [neg_neg] at h1
      rw [h1, Int.tdiv_eq_ediv (by omega) hU.le]
    refine Or.inr ⟨h, hdiv, ?_⟩
    rw [Int.tmod_def, hdiv]
    have := Int.emod_add_ediv (-d) U
    linarith

theorem truncInt_Seconds (d : Int) (h : |d| < 2 ^ 24 * 1000000000) :
    truncInt (Seconds d) = Int.tdiv d 1000000000 := by
  have habs := abs_lt.mp h
  have hcast : ((1000000000 : ℤ) : ℚ) = 1000000000 := by norm_num
  have key := truncInt_sum (Int.tdiv d 1000000000) (Int.tmod d 1000000000) 1000000000 24
  rw [hcast] at key
  apply key
  · rcases tdiv_tmod_cases d 1000000000 (by norm_num) with ⟨h0, hq, _⟩ | ⟨h0, hq, _⟩ <;>
      rw [hq, abs_lt] <;> omega
  · norm_num
  · rcases tdiv_tmod_cases d 1000000000 (by norm_num) with ⟨h0, _, hr⟩ | ⟨h0, _, hr⟩ <;>
      rw [hr, abs_lt] <;> omega
  · norm_num
  · rcases tdiv_tmod_cases d 1000000000 (by norm_num) with ⟨h0, hq, hr⟩ | ⟨h0, hq, hr⟩
    · left; rw [hq, hr]; omega
    · right; rw [hq, hr]; omega
  · norm_num

theorem truncInt_Minutes (d : Int) (h : |d| < 2 ^ 18 * 60000000000) :
    truncInt (Minutes d) = Int.tdiv d 60000000000 := by
  have habs := abs_lt.mp h
  have hcast : ((60000000000 : ℤ) : ℚ) = 60000000000 := by norm_num
  have key := truncInt_sum (Int.tdiv d 60000000000) (Int.tmod d 60000000000) 60000000000 18
  rw [hcast] at key
  apply key
  · rcases tdiv_tmod_cases d 60000000000 (by norm_num) with ⟨h0, hq, _⟩ | ⟨h0, hq, _⟩ <;>
      rw [hq, abs_lt] <;> omega
  · norm_num
  · rcases tdiv_tmod_cases d 60000000000 (by norm_num) with ⟨h0, _, hr⟩ | ⟨h0, _, hr⟩ <;>
      rw [hr, abs_lt] <;> omega
  · norm_num
  · rcases tdiv_tmod_cases d 60000000000 (by norm_num) with ⟨h0, hq, hr⟩ | ⟨h0, hq, hr⟩
    · left; rw [hq, hr]; omega
    · right; rw [hq, hr]; omega
  · norm_num

theorem roundHalfEven_down (y : ℚ) (f : ℤ) (h1 : (f : ℚ) ≤ y) (h2 : y < f + 1 / 2) :
    roundHalfEven y = f := by
  have hf : ⌊y⌋ = f := by
    rw [Int.floor_eq_iff]
    exact ⟨h1, by linarith⟩
  unfold roundHalfEven
  simp only [hf]
  rw [if_pos (by linarith)]

theorem roundHalfEven_up (y : ℚ) (f : ℤ) (h1 : (f : ℚ) + 1 / 2 < y) (h2 : y < f + 1) :
    roundHalfEven y = f + 1 := by
  have hf : ⌊y⌋ = f := by
    rw [Int.floor_eq_iff]
    exact ⟨by linarith, h2⟩
  unfold roundHalfEven
  simp only [hf]
  rw [if_neg (by linarith), if_pos (by linarith)]

theorem roundPos_eval (x : ℚ) (e n : ℤ) (hlo : 2 ^ e ≤ x) (hhi : x < 2 ^ (e + 1))
    (hn : roundHalfEven (x * 2 ^ (52 - e)) = n) : roundPos x = n / 2 ^ (52 - e) := by
  have hx : 0 < x := lt_of_lt_of_le (by positivity) hlo
  have hlog : Int.log 2 x = e := by
    apply le_antisymm
    · have := (Int.lt_zpow_iff_log_lt (b := 2) (by norm_num) hx (x := e + 1)).mp
        (by exact_mod_cast hhi)
      omega
    · exact (Int.zpow_le_iff_le_log (b := 2) (by norm_num) hx (x := e)).mp
        (by exact_mod_cast hlo)
  unfold roundPos
  simp only [hlog, hn]

theorem Minutes_edge : Minutes 15728699999999999 = 262145 := by
  have hq : Int.tdiv 15728699999999999 60000000000 = 262144 := by decide
  have hr : Int.tmod 15728699999999999 60000000000 = 59999999999 := by decide
  have h1 : float64 ((262144 : ℤ) : ℚ) = 262144 := by
    rw [float64_intCast _ (by decide)]
    norm_num
  have h2 : float64 ((59999999999 : ℤ) : ℚ) = 59999999999 := by
    rw [float64_intCast _ (by decide)]
    norm_num
  have h3 : float64 ((59999999999 : ℚ) / 60000000000) = 9007199254590872 / 2 ^ 53 := by
    rw [float64_pos _ (by norm_num)]
    have := roundPos_eval ((59999999999 : ℚ) / 60000000000) (-1) 9007199254590872
      (by norm_num) (by norm_num)
      (roundHalfEven_down _ _ (by norm_num) (by norm_num))
    rw [this]
    norm_num
  have h4 : float64 ((262144 : ℚ) + 9007199254590872 / 2 ^ 53) = 262145 := by
    rw [float64_pos _ (by norm_num)]
    have := roundPos_eval ((262144 : ℚ) + 9007199254590872 / 2 ^ 53) 18 (4503616807239680 - 1 + 1)
      (by norm_num) (by norm_num)
      (roundHalfEven_up _ _ (by norm_num) (by norm_num))
    rw [this]
    norm_num
  unfold Minutes
  simp only [hq, hr, h1, h2, h3, h4]

theorem Seconds_edge : Seconds 15728699999999999 = 8444281513574399 / 536870912 := by
  have hq : Int.tdiv 15728699999999999 1000000000 = 15728699 := by decide
  have hr : Int.tmod 15728699999999999 1000000000 = 999999999 := by decide
  have h1 : float64 ((15728699 : ℤ) : ℚ) = 15728699 := by
    rw [float64_intCast _ (by decide)]
    norm_num
  have h2 : float64 ((999999999 : ℤ) : ℚ) = 999999999 := by
    rw [float64_intCast _ (by decide)]
    norm_num
  have h3 : float64 ((999999999 : ℚ) / 1000000000) = 9007199245733793 / 2 ^ 53 := by
    rw [float64_pos _ (by norm_num)]
    have := roundPos_eval ((999999999 : ℚ) / 1000000000) (-1) (9007199245733792 + 1)
      (by norm_num) (by norm_num)
      (roundHalfEven_up _ _ (by norm_num) (by norm_num))
    rw [this]
    norm_num
  have h4 : float64 ((15728699 : ℚ) + 9007199245733793 / 2 ^ 53) =
      8444281513574399 / 536870912 := by
    rw [float64_pos _ (by norm_num)]
    have := roundPos_eval ((15728699 : ℚ) + 9007199245733793 / 2 ^ 53) 23 8444281513574399
      (by norm_num) (by norm_num)
      (roundHalfEven_down _ _ (by norm_num) (by norm_num))
    rw [this]
    norm_num
  unfold Seconds
  simp only [hq, hr, h1, h2, h3, h4]


theorem Seconds_edge_remaining : Seconds 16777216999999999 = 16777217 := by
  have hq : Int.tdiv 16777216999999999 1000000000 = 16777216 := by decide
  have hr : Int.tmod 16777216999999999 1000000000 = 999999999 := by decide
  have h1 : float64 ((16777216 : ℤ) : ℚ) = 16777216 := by
    rw [float64_intCast _ (by decide)]
    norm_num
  have h2 : float64 ((999999999 : ℤ) : ℚ) = 999999999 := by
    rw [float64_intCast _ (by decide)]
    norm_num
  have h3 : float64 ((999999999 : ℚ) / 1000000000) = 9007199245733793 / 2 ^ 53 := by
    rw [float64_pos _ (by norm_num)]
    have := roundPos_eval ((999999999 : ℚ) / 1000000000) (-1) (9007199245733792 + 1)
      (by norm_num) (by norm_num)
      (roundHalfEven_up _ _ (by norm_num) (by norm_num))
    rw [this]
    norm_num
  have h4 : float64 ((16777216 : ℚ) + 9007199245733793 / 2 ^ 53) = 16777217 := by
    rw [float64_pos _ (by norm_num)]
    have := roundPos_eval ((16777216 : ℚ) + 9007199245733793 / 2 ^ 53) 24
      (4503599895805951 + 1) (by norm_num) (by norm_num)
      (roundHalfEven_up _ _ (by norm_num) (by norm_num))
    rw [this]
    norm_num
  unfold Seconds
  simp only [hq, hr, h1, h2, h3, h4]

/-- Two digits for the seconds of a minute. -/
theorem fmt02d_length (v : Int) (h0 : 0 ≤ v) (h59 : v ≤ 59) : (fmt02d v).length = 2 := by
  interval_cases v <;> rfl

/-- C8, as the claim states it, fails for long durations: a duration of
262144 minutes and 59.999999999 seconds is formatted with 262145 minutes
and -1 seconds, and a remaining duration of 16777216.999999999 seconds is
reported as 16777217 seconds. -/
theorem convertItem_counterexample :
    convertItem (some { Title := "t", URL := "u", Duration := 15728699999999999 })
        16777216999999999 =
      some { Title := "t", Seconds := 15728699, SecondsRemaining := 16777217,
             FormattedTime := "262145:-1", URL := "u" } ∧
      (15728699999999999 : Int) / 60000000000 = 262144 ∧
      Int.tdiv 16777216999999999 1000000000 = 16777216 := by
  refine ⟨?_, by decide, by decide⟩
  have hm : truncInt (Minutes 15728699999999999) = 262145 := by
    rw [Minutes_edge]
    simp [truncInt]
  have hs : truncInt (Seconds 15728699999999999) = 15728699 := by
    rw [Seconds_edge]
    unfold truncInt
    rw [if_pos (by norm_num), Int.floor_eq_iff]
    constructor <;> norm_num
  have hr : truncInt (Seconds 16777216999999999) = 16777217 := by
    rw [Seconds_edge_remaining]
    simp [truncInt]
  simp only [convertItem, hm, hs, hr]
  decide

/-- C8, amended: for an item whose duration `d` is non-negative and below
`2 ^ 18` minutes, `convertItem` produces an item whose `FormattedTime` is
`M:SS` with `M` the whole minutes of `d` and `SS` the remaining whole
seconds, zero-padded to two digits, so that `0 ≤ SS ≤ 59` and
`60 * M + SS` is its `Seconds` field; and for a remaining duration below
`2 ^ 24` seconds in magnitude its `SecondsRemaining` is the whole seconds of
that duration. -/
theorem convertItem_time (itm : PlaylistItem) (remaining : Int)
    (hd0 : 0 ≤ itm.Duration) (hd : itm.Duration < 2 ^ 18 * 60000000000)
    (hr : |remaining| < 2 ^ 24 * 1000000000) :
    ∃ newItem, convertItem (some itm) remaining = some newItem ∧
      newItem.FormattedTime = fmtD (itm.Duration / 60000000000) ++ ":" ++
        fmt02d (itm.Duration / 1000000000 % 60) ∧
      (fmt02d (itm.Duration / 1000000000 % 60)).length = 2 ∧
      0 ≤ itm.Duration / 1000000000 % 60 ∧ itm.Duration / 1000000000 % 60 ≤ 59 ∧
      60 * (itm.Duration / 60000000000) + itm.Duration / 1000000000 % 60 = newItem.Seconds ∧
      newItem.Seconds = itm.Duration / 1000000000 ∧
      newItem.SecondsRemaining = Int.tdiv remaining 1000000000 ∧
      newItem.Title = itm.Title ∧ newItem.URL = itm.URL := by
  have hm : truncInt (Minutes itm.Duration) = itm.Duration / 60000000000 := by
    rw [truncInt_Minutes _ (by rw [abs_of_nonneg hd0]; exact hd)]
    exact Int.tdiv_eq_ediv hd0 (by norm_num)
  have hs : truncInt (Seconds itm.Duration) = itm.Duration / 1000000000 := by
    rw [truncInt_Seconds _ (by rw [abs_of_nonneg hd0]; omega)]
    exact Int.tdiv_eq_ediv hd0 (by norm_num)
  have hrem : truncInt (Seconds remaining) = Int.tdiv remaining 1000000000 :=
    truncInt_Seconds remaining hr
  have hsec : itm.Duration / 1000000000 - itm.Duration / 60000000000 * 60 =
      itm.Duration / 1000000000 % 60 := by omega
  have hrun : convertItem (some itm) remaining = some
      { Title := itm.Title
        Seconds := itm.Duration / 1000000000
        SecondsRemaining := Int.tdiv remaining 1000000000
        FormattedTime := fmtD (itm.Duration / 60000000000) ++ ":" ++
          fmt02d (itm.Duration / 1000000000 % 60)
        URL := itm.URL } := by
    simp only [convertItem, hm, hs, hrem, hsec]
  refine ⟨_, hrun, rfl, ?_, ?_, ?_, ?_, rfl, rfl, rfl, rfl⟩
  · exact fmt02d_length _ (by omega) (by omega)
  · omega
  · omega
  · show 60 * (itm.Duration / 60000000000) + itm.Duration / 1000000000 % 60 =
      itm.Duration / 1000000000
    omega

/-- The theorem `convertItem_time` at a track of 3:05 with 59.5 seconds
left. -/
theorem convertItem_time_witness :
    ∃ newItem, convertItem (some trackA) 59500000000 = some newItem ∧
      newItem.FormattedTime = "3:05" ∧ newItem.Seconds = 185 ∧
      newItem.SecondsRemaining = 59 := by
  obtain ⟨newItem, hrun, hfmt, _, _, _, _, hsec, hrem, _⟩ :=
    convertItem_time trackA 59500000000 (by decide) (by decide) (by decide)
  exact ⟨newItem, hrun, hfmt.trans (by decide), hsec.trans (by decide), hrem.trans (by decide)⟩

/-! ## Properties of the HTTP API -/

theorem status_httpError (w : ResponseWriter) (text : String) (code : Nat)
    (hw : w.status = none) : (httpError w text code).status = some code := by
  simp only [httpError, headerSet, WriteHeader, Write, hw]
  split <;> rfl

theorem header_unauthorized (w : ResponseWriter) :
    queryGet (httpError (headerSet w "WWW-Authenticate" "Basic realm=\"MusicBot\"")
      "401 Unauthorized" 401).header "WWW-Authenticate" = "Basic realm=\"MusicBot\"" := by
  simp only [httpError, headerSet, WriteHeader, Write]
  cases w.status <;> cases w.failing <;> simp [queryGet, List.find?_cons, List.filter_cons]

/-- What the authenticator does around any inner handler: with the
credentials of `r.BasicAuth()` equal to the configured ones it is the inner
handler, otherwise it answers 401 without it. -/
theorem authenticator_gate (api : API π) (inner : Handler π) (w : ResponseWriter)
    (r : Request) (p : π) :
    authenticator api inner w r p =
      if api.Configuration.Username = (BasicAuth r).1 ∧
          api.Configuration.Password = (BasicAuth r).2.1 then inner w r p
      else some (httpError (headerSet w "WWW-Authenticate" "Basic realm=\"MusicBot\"")
        "401 Unauthorized" 401, p) := by
  unfold authenticator
  by_cases hu : api.Configuration.Username = (BasicAuth r).1
  · by_cases hp : api.Configuration.Password = (BasicAuth r).2.1
    · simp [hu, hp]
    · simp [hu, hp]
  · simp [hu]

/-- C4, as the claim states it, fails: with an empty configured username and
password, a request without an `Authorization` header reaches the handler of
`/stop`, which stops the playlist; the response is not a 401. -/
theorem auth_no_header_counterexample :
    anonymousRequest.basicAuth = none ∧
      (serve openAPI "/stop" "GET").bind
          (fun h => h (freshWriter false) anonymousRequest demoPlaylist) =
        some (freshWriter false, { items := [], current := none, status := "stopped" }) ∧
      (freshWriter false).status ≠ some 401 := by
  decide

/-- C4, amended: behind each mutating endpoint (`/play`, `/pause`, `/stop`,
`/next`, `/add`) the router runs the endpoint's handler if and only if the
username and password that `r.BasicAuth()` yields (two empty strings when the
request has no usable `Authorization` header) equal the configured username
and password; otherwise the response is 401 with a `WWW-Authenticate`
header, whatever the handler is, and the playlist is untouched. -/
theorem mutating_endpoints_gate (api : API π) (pattern : String) (inner : Handler π)
    (hmem : (pattern, inner) ∈ mutatingEndpoints api)
    (w : ResponseWriter) (r : Request) (p : π) (hw : w.status = none) :
    ∃ h, serve api pattern "GET" = some h ∧
      ((api.Configuration.Username = (BasicAuth r).1 ∧
          api.Configuration.Password = (BasicAuth r).2.1) →
        h w r p = inner w r p) ∧
      (¬ (api.Configuration.Username = (BasicAuth r).1 ∧
          api.Configuration.Password = (BasicAuth r).2.1) →
        ∃ w1, h w r p = some (w1, p) ∧ w1.status = some 401 ∧
          queryGet w1.header "WWW-Authenticate" = "Basic realm=\"MusicBot\"" ∧
          ∀ other : Handler π, authenticator api other w r p = some (w1, p)) := by
  have hserve : serve api pattern "GET" = some (authenticator api inner) := by
    simp only [mutatingEndpoints, List.mem_cons, Prod.mk.injEq, List.mem_singleton,
      List.not_mem_nil, or_false] at hmem
    rcases hmem with ⟨rfl, rfl⟩ | ⟨rfl, rfl⟩ | ⟨rfl, rfl⟩ | ⟨rfl, rfl⟩ | ⟨rfl, rfl⟩ <;> rfl
  refine ⟨_, hserve, ?_, ?_⟩
  · intro hcred
    rw [authenticator_gate, if_pos hcred]
  · intro hcred
    refine ⟨_, by rw [authenticator_gate, if_neg hcred], ?_, header_unauthorized w, ?_⟩
    · exact status_httpError _ _ _ (by simpa [headerSet] using hw)
    · intro other
      rw [authenticator_gate, if_neg hcred]

/-- The theorem `mutating_endpoints_gate` at `/stop`, for a request without
credentials and for one with the configured credentials. -/
theorem mutating_endpoints_gate_witness :
    (∃ h, serve demoAPI "/stop" "GET" = some h ∧
        ∃ w1, h (freshWriter false) anonymousRequest demoPlaylist = some (w1, demoPlaylist) ∧
          w1.status = some 401) ∧
      (∃ h, serve demoAPI "/stop" "GET" = some h ∧
        h (freshWriter false) { basicAuth := some ("dj", "s3cret"), query := [] } demoPlaylist =
          some (freshWriter false, { items := [], current := none, status := "stopped" })) := by
  constructor
  · obtain ⟨h, hserve, _, hdeny⟩ := mutating_endpoints_gate demoAPI "/stop" (StopHandler demoAPI)
      (by simp [mutatingEndpoints]) (freshWriter false) anonymousRequest demoPlaylist rfl
    obtain ⟨w1, hrun, hstatus, _⟩ := hdeny (by decide)
    exact ⟨h, hserve, w1, hrun, hstatus⟩
  · obtain ⟨h, hserve, hpass, _⟩ := mutating_endpoints_gate demoAPI "/stop" (StopHandler demoAPI)
      (by simp [mutatingEndpoints]) (freshWriter false)
      { basicAuth := some ("dj", "s3cret"), query := [] } demoPlaylist rfl
    exact ⟨h, hserve, (hpass (by decide)).trans (by decide)⟩

/-- A fresh response after a value was encoded: status 200, and the value
in the body unless the connection fails. -/
theorem encodeOr500_fresh (failing : Bool) (v : Payload) :
    (encodeOr500 (freshWriter failing) v).status = some 200 ∧
      (encodeOr500 (freshWriter failing) v).body = if failing then [] else [v] := by
  cases failing <;> simp [encodeOr500, Encode, Write, WriteHeader, freshWriter]

/-- A non-nil playlist item is always converted, and the `Item` carries
its title and URL. -/
theorem converts_convertItem (itm : PlaylistItem) :
    ∃ it, converts itm it := by
  exact ⟨_, rfl, rfl, rfl, rfl⟩

/-- The list `convertItems` builds is, in order, the conversion of the
non-nil items. -/
theorem convertItems_nonNil (itms : List (Option PlaylistItem)) :
    List.Forall₂ converts (nonNil itms) (convertItems itms) := by
  induction itms with
  | nil => exact List.Forall₂.nil
  | cons x xs ih =>
    cases x with
    | none => simpa [nonNil, convertItems] using ih
    | some i =>
      obtain ⟨it, hit⟩ := converts_convertItem i
      have hcons : convertItems (some i :: xs) = it :: convertItems xs := by
        simp [convertItems, hit.1]
      have hnon : nonNil (some i :: xs) = i :: nonNil xs := by
        simp [nonNil]
      rw [hcons, hnon]
      exact List.Forall₂.cons hit ih

/-- The conversion of the track of 3:05, all of it remaining. -/
theorem convertItem_trackA : convertItem (some trackA) trackA.Duration = some itemA := by
  have hm : truncInt (Minutes trackA.Duration) = 3 := by
    rw [truncInt_Minutes _ (by decide)]
    decide
  have hs : truncInt (Seconds trackA.Duration) = 185 := by
    rw [truncInt_Seconds _ (by decide)]
    decide
  simp only [convertItem, hm, hs]
  decide

/-- C5, as the claim states it, fails: a playlist whose `Play` and `Next`
return no error and no item makes `PlayHandler` and `NextHandler` panic on
`itm.GetDuration()`, so nothing is encoded. -/
theorem nil_item_counterexample :
    (lenientAPI.playlist.Play emptyPlaylist).1 = (none, none) ∧
      PlayHandler lenientAPI (freshWriter false) anonymousRequest emptyPlaylist = none ∧
      (lenientAPI.playlist.Next emptyPlaylist).1 = (none, none) ∧
      NextHandler lenientAPI (freshWriter false) anonymousRequest emptyPlaylist = none := by
  decide

/-- C5, amended: when the playlist operation behind PlayHandler,
PauseHandler, StopHandler, NextHandler or AddHandler returns an error, the
response has status 500 and an empty body.  When it returns no error:
Pause and Stop leave the response untouched (no 500); Play and Next, given
the non-nil item the playlist returned, answer with status 200 and hand the
conversion of that item (its title, its URL, its whole duration remaining)
to the encoder; Add answers with status 200 and hands over, in order, the
conversions of the non-nil items the playlist returned.  What is handed to
the encoder is the body, unless the connection fails. -/
theorem handlers_status (api : API π) (r : Request) (p : π) (failing : Bool) :
    ((∀ e, (api.playlist.Play p).1.2 = some e →
        ∃ w1, PlayHandler api (freshWriter failing) r p = some (w1, (api.playlist.Play p).2) ∧
          w1.status = some 500 ∧ w1.body = []) ∧
      (∀ itm, (api.playlist.Play p).1 = (some itm, none) →
        ∃ w1 it, PlayHandler api (freshWriter failing) r p =
            some (w1, (api.playlist.Play p).2) ∧
          w1.status = some 200 ∧ converts itm it ∧
          w1.body = if failing then [] else [Payload.item (some it)])) ∧
    ((∀ e, (api.playlist.Pause p).1 = some e →
        ∃ w1, PauseHandler api (freshWriter failing) r p = some (w1, (api.playlist.Pause p).2) ∧
          w1.status = some 500 ∧ w1.body = []) ∧
      ((api.playlist.Pause p).1 = none →
        PauseHandler api (freshWriter failing) r p =
          some (freshWriter failing, (api.playlist.Pause p).2))) ∧
    ((∀ e, (api.playlist.Stop p).1 = some e →
        ∃ w1, StopHandler api (freshWriter failing) r p = some (w1, (api.playlist.Stop p).2) ∧
          w1.status = some 500 ∧ w1.body = []) ∧
      ((api.playlist.Stop p).1 = none →
        StopHandler api (freshWriter failing) r p =
          some (freshWriter failing, (api.playlist.Stop p).2))) ∧
    ((∀ e, (api.playlist.Next p).1.2 = some e →
        ∃ w1, NextHandler api (freshWriter failing) r p = some (w1, (api.playlist.Next p).2) ∧
          w1.status = some 500 ∧ w1.body = []) ∧
      (∀ itm, (api.playlist.Next p).1 = (some itm, none) →
        ∃ w1 it, NextHandler api (freshWriter failing) r p =
            some (w1, (api.playlist.Next p).2) ∧
          w1.status = some 200 ∧ converts itm it ∧
          w1.body = if failing then [] else [Payload.item (some it)])) ∧
    ((∀ e, (api.playlist.AddItems (queryGet r.query "url") p).1.2 = some e →
        ∃ w1, AddHandler api (freshWriter failing) r p =
            some (w1, (api.playlist.AddItems (queryGet r.query "url") p).2) ∧
          w1.status = some 500 ∧ w1.body = []) ∧
      ((api.playlist.AddItems (queryGet r.query "url") p).1.2 = none →
        ∃ w1 l, AddHandler api (freshWriter failing) r p =
            some (w1, (api.playlist.AddItems (queryGet r.query "url") p).2) ∧
          w1.status = some 200 ∧
          List.Forall₂ converts
            (nonNil (api.playlist.AddItems (queryGet r.query "url") p).1.1) l ∧
          w1.body = if failing then [] else [Payload.items l])) := by
  refine ⟨⟨?_, ?_⟩, ⟨?_, ?_⟩, ⟨?_, ?_⟩, ⟨?_, ?_⟩, ⟨?_, ?_⟩⟩
  · intro e he
    exact ⟨WriteHeader (freshWriter failing) 500, by simp only [PlayHandler, he], rfl, rfl⟩
  · intro itm hitem
    have h1 : (api.playlist.Play p).1.1 = some itm := by rw [hitem]
    have h2 : (api.playlist.Play p).1.2 = none := by rw [hitem]
    obtain ⟨it, hit⟩ := converts_convertItem itm
    refine ⟨encodeOr500 (freshWriter failing) (Payload.item (some it)), it, ?_,
      (encodeOr500_fresh failing _).1, hit, (encodeOr500_fresh failing _).2⟩
    simp only [PlayHandler, h1, h2, hit.1]
  · intro e he
    exact ⟨WriteHeader (freshWriter failing) 500, by simp only [PauseHandler, he], rfl, rfl⟩
  · intro hok
    simp only [PauseHandler, hok]
  · intro e he
    exact ⟨WriteHeader (freshWriter failing) 500, by simp only [StopHandler, he], rfl, rfl⟩
  · intro hok
    simp only [StopHandler, hok]
  · intro e he
    exact ⟨WriteHeader (freshWriter failing) 500, by simp only [NextHandler, he], rfl, rfl⟩
  · intro itm hitem
    have h1 : (api.playlist.Next p).1.1 = some itm := by rw [hitem]
    have h2 : (api.playlist.Next p).1.2 = none := by rw [hitem]
    obtain ⟨it, hit⟩ := converts_convertItem itm
    refine ⟨encodeOr500 (freshWriter failing) (Payload.item (some it)), it, ?_,
      (encodeOr500_fresh failing _).1, hit, (encodeOr500_fresh failing _).2⟩
    simp only [NextHandler, h1, h2, hit.1]
  · intro e he
    exact ⟨WriteHeader (freshWriter failing) 500, by simp only [AddHandler, he], rfl, rfl⟩
  · intro hok
    exact ⟨_, _, by simp only [AddHandler, hok], (encodeOr500_fresh failing _).1,
      convertItems_nonNil _, (encodeOr500_fresh failing _).2⟩

/-- The theorem `handlers_status` at `/next` on a playlist with nothing
pending (an error), at `/play` on a playlist that plays a track of 3:05,
and at `/add` of one URL: the converted items are in the body. -/
theorem handlers_status_witness :
    (∃ w1, NextHandler demoAPI (freshWriter false) anonymousRequest demoPlaylist =
        some (w1, { items := [], current := none, status := "stopped" }) ∧
        w1.status = some 500 ∧ w1.body = []) ∧
      (∃ w1, PlayHandler demoAPI (freshWriter false) anonymousRequest demoPlaylist =
          some (w1, demoPlaylist) ∧
        w1.status = some 200 ∧ w1.body = [Payload.item (some itemA)]) ∧
      (∃ w1 l, AddHandler demoAPI (freshWriter false) addRequest emptyPlaylist =
          some (w1, { items := [trackB], current := none, status := "stopped" }) ∧
        w1.status = some 200 ∧ w1.body = [Payload.items l] ∧
        l.map (fun it => it.Title) = ["https://example.org/b"]) := by
  refine ⟨(handlers_status demoAPI anonymousRequest demoPlaylist false).2.2.2.1.1
      "playlist is empty" (by decide), ?_, ?_⟩
  · obtain ⟨w1, it, hrun, hstatus, hconv, hbody⟩ :=
      (handlers_status demoAPI anonymousRequest demoPlaylist false).1.2 trackA (by decide)
    have hit : it = itemA := Option.some.inj (hconv.1.symm.trans convertItem_trackA)
    refine ⟨w1, hrun, hstatus, ?_⟩
    rw [hbody, hit]
    rfl
  · obtain ⟨w1, l, hrun, hstatus, hconv, hbody⟩ :=
      (handlers_status demoAPI addRequest emptyPlaylist false).2.2.2.2.2 (by decide)
    refine ⟨w1, l, hrun, hstatus, hbody, ?_⟩
    have hnon : nonNil (demoAPI.playlist.AddItems (queryGet addRequest.query "url")
        emptyPlaylist).1.1 = [trackB] := by decide
    rw [hnon] at hconv
    cases hconv with
    | cons hhead htail =>
      cases htail
      simp [hhead.2.1, trackB]

/-! ## Properties of the YouTube metadata lookup -/

/-- The loop of `GetMetaForIdentifier` keeps its start value when no item of
the response matches, and otherwise ends with the metadata of a matching
item. -/
theorem foldl_pickVideo (yt : YouTube) (identifier : String) (items : List Video)
    (start : Meta) :
    ((∀ item ∈ items, ¬ (item.Id = identifier ∧ item.Kind = "youtube#video")) ∧
        items.foldl (pickVideo yt identifier) start = start) ∨
      ∃ item ∈ items, item.Id = identifier ∧ item.Kind = "youtube#video" ∧
        items.foldl (pickVideo yt identifier) start = metaOf yt identifier item := by
  induction items generalizing start with
  | nil => exact Or.inl ⟨by simp, rfl⟩
  | cons x xs ih =>
    rw [List.foldl_cons]
    rcases ih (pickVideo yt identifier start x) with ⟨hnone, hfold⟩ | ⟨item, hmem, hid, hkind, hfold⟩
    · by_cases hx : x.Id = identifier ∧ x.Kind = "youtube#video"
      · refine Or.inr ⟨x, List.mem_cons_self _ _, hx.1, hx.2, ?_⟩
        rw [hfold]
        simp [pickVideo, hx, metaOf]
      · refine Or.inl ⟨?_, ?_⟩
        · intro item hitem
          rcases List.mem_cons.mp hitem with rfl | hitem
          · exact hx
          · exact hnone item hitem
        · rw [hfold]
          simp only [pickVideo, if_neg hx]
    · exact Or.inr ⟨item, List.mem_cons_of_mem _ hmem, hid, hkind, hfold⟩

/-- A lookup by identifier returns either a song or an error, never both
and never neither. -/
theorem GetMetaForIdentifier_cases (yt : YouTube) (identifier : String) :
    (∃ m, GetMetaForIdentifier yt identifier = (some m, none)) ∨
      ∃ err, GetMetaForIdentifier yt identifier = (none, some err) := by
  unfold GetMetaForIdentifier
  cases yt.videosList identifier with
  | error err => exact Or.inr ⟨err, rfl⟩
  | ok items => exact Or.inl ⟨_, rfl⟩

/-- C6, as the claim states it, fails: a URL without a `v` value yields no
song and no error, and a lookup that matches no video yields a song with an
empty identifier and an empty title and no error. -/
theorem GetMetaForURL_counterexample :
    GetMetaForURL demoYouTube "https://www.youtube.com/watch" = (none, none) ∧
      GetMetaForURL demoYouTube "https://www.youtube.com/watch?v=gone" =
        (some { Identifier := "", Title := "", Duration := 0, Source := "" }, none) := by
  decide

/-- C6, amended: `GetMetaForURL` returns the error and no song when the URL
does not parse or the request to the provider fails; no song and no error
when the URL has no `v` value; and otherwise a song and no error, the song
being the metadata of a response item with the identifier and the kind
`youtube#video` when there is one, and the empty `Meta` (empty identifier
and title) when there is none. -/
theorem GetMetaForURL_cases (yt : YouTube) (source : String) :
    (∀ err, yt.parseQuery source = Except.error err →
      GetMetaForURL yt source = (none, some err)) ∧
    (∀ query, yt.parseQuery source = Except.ok query → queryGet query "v" = "" →
      GetMetaForURL yt source = (none, none)) ∧
    (∀ query err, yt.parseQuery source = Except.ok query → queryGet query "v" ≠ "" →
      yt.videosList (queryGet query "v") = Except.error err →
      GetMetaForURL yt source = (none, some err)) ∧
    (∀ query items, yt.parseQuery source = Except.ok query → queryGet query "v" ≠ "" →
      yt.videosList (queryGet query "v") = Except.ok items →
      ((∀ item ∈ items, ¬ (item.Id = queryGet query "v" ∧ item.Kind = "youtube#video")) ∧
          GetMetaForURL yt source = (some {}, none)) ∨
        ∃ item ∈ items, item.Id = queryGet query "v" ∧ item.Kind = "youtube#video" ∧
          GetMetaForURL yt source = (some (metaOf yt (queryGet query "v") item), none)) := by
  refine ⟨?_, ?_, ?_, ?_⟩
  · intro err hparse
    simp only [GetMetaForURL, hparse]
  · intro query hparse hv
    simp only [GetMetaForURL, hparse, hv, if_true]
  · intro query err hparse hv hlist
    simp only [GetMetaForURL, hparse, if_neg hv, GetMetaForIdentifier, hlist]
  · intro query items hparse hv hlist
    have hrun : GetMetaForURL yt source =
        (some (items.foldl (pickVideo yt (queryGet query "v")) {}), none) := by
      simp only [GetMetaForURL, hparse, if_neg hv, GetMetaForIdentifier, hlist]
    rcases foldl_pickVideo yt (queryGet query "v") items {} with
      ⟨hnone, hfold⟩ | ⟨item, hmem, hid, hkind, hfold⟩
    · exact Or.inl ⟨hnone, by rw [hrun, hfold]⟩
    · exact Or.inr ⟨item, hmem, hid, hkind, by rw [hrun, hfold]⟩

/-- The theorem `GetMetaForURL_cases` at a URL without a `v` value and at
a URL that does not parse. -/
theorem GetMetaForURL_cases_witness :
    GetMetaForURL demoYouTube "https://www.youtube.com/watch" = (none, none) ∧
      GetMetaForURL demoYouTube "https://www.youtube.com/watch?v=down" =
        (none, some "invalid URL") :=
  ⟨(GetMetaForURL_cases demoYouTube "https://www.youtube.com/watch").2.1 [] rfl
      (by decide),
    (GetMetaForURL_cases demoYouTube "https://www.youtube.com/watch?v=down").1 "invalid URL"
      rfl⟩

/-- The loop of `GetMetasForPlaylistURL` appends, in order, the metadata of
the entries that are looked up without error. -/
theorem foldl_addEntry (yt : YouTube) (response : List PlaylistEntry) (items : List Meta) :
    response.foldl (addEntry yt) items = items ++ response.filterMap (lookedUp yt) := by
  induction response generalizing items with
  | nil => simp
  | cons x xs ih =>
    rw [List.foldl_cons, ih]
    by_cases hkind : x.Kind = "youtube#playlistItem"
    · rcases GetMetaForIdentifier_cases yt x.VideoId with ⟨m, hm⟩ | ⟨err, herr⟩
      · simp [addEntry, lookedUp, hkind, hm]
      · simp [addEntry, lookedUp, hkind, herr]
    · simp [addEntry, lookedUp, hkind]

/-- C7: on a playlist response of the provider, `GetMetasForPlaylistURL`
returns, in playlist order, exactly the metadata of the entries of kind
`youtube#playlistItem` whose lookup by `GetMetaForIdentifier` returned no
error; the other entries are skipped and the returned error is nil. -/
theorem GetMetasForPlaylistURL_ok (yt : YouTube) (source : String)
    (query : List (String × String)) (response : List PlaylistEntry)
    (hparse : yt.parseQuery source = Except.ok query)
    (hlist : queryGet query "list" ≠ "")
    (hresponse : yt.playlistItemsList (queryGet query "list") = Except.ok response) :
    GetMetasForPlaylistURL yt source = (response.filterMap (lookedUp yt), none) := by
  simp only [GetMetasForPlaylistURL, hparse, if_neg hlist, hresponse, foldl_addEntry,
    List.nil_append]

/-- The theorem `GetMetasForPlaylistURL_ok` on a playlist of four entries:
one whose lookup fails, one found, one of another kind, one not found. -/
theorem GetMetasForPlaylistURL_ok_witness :
    GetMetasForPlaylistURL demoYouTube "https://www.youtube.com/playlist?list=PL1" =
      ([{ Identifier := "abc", Title := "Aria", Duration := 185000000000,
          Source := "https://www.youtube.com/watch?v=abc" }, {}], none) :=
  (GetMetasForPlaylistURL_ok demoYouTube "https://www.youtube.com/playlist?list=PL1"
    [("list", "PL1")] demoEntries rfl (by decide) rfl).trans (by decide)

/-! ## Properties of `sanitizeSong` -/

/-- Nothing is dropped from a list whose first element does not satisfy the
test. -/
theorem dropWhile_of_head {α : Type} (p : α → Bool) (l : List α)
    (h : ∀ c, l.head? = some c → p c = false) : l.dropWhile p = l := by
  cases l with
  | nil => rfl
  | cons c cs =>
    have hc := h c rfl
    simp [List.dropWhile_cons, hc]

/-- Dropping from a list that starts with elements satisfying the test and
goes on with one that does not. -/
theorem dropWhile_wrap {α : Type} (p : α → Bool) (ws l : List α)
    (hws : ∀ c ∈ ws, p c = true) (h : ∀ c, l.head? = some c → p c = false) :
    (ws ++ l).dropWhile p = l := by
  rw [List.dropWhile_append_of_pos hws, dropWhile_of_head p l h]

/-- The first element of `l ++ y … y` is the first of `l`, or `y`. -/
theorem head?_append_replicate {α : Type} (y : α) (q : α → Prop) (b : Nat) (l : List α)
    (hl : ∀ c, l.head? = some c → q c) (hy : q y) :
    ∀ c, (l ++ List.replicate b y).head? = some c → q c := by
  intro c hc
  cases l with
  | cons u us =>
    simp at hc
    rw [← hc]
    exact hl u rfl
  | nil =>
    cases b with
    | zero => simp at hc
    | succ n =>
      simp [List.replicate_succ] at hc
      rw [← hc]
      exact hy

/-- The first element of `x … x ++ l ++ y … y` is `x`, the first of `l`,
or `y`. -/
theorem head?_wrap {α : Type} (x y : α) (q : α → Prop) (a b : Nat) (l : List α)
    (hl : ∀ c, l.head? = some c → q c) (hx : q x) (hy : q y) :
    ∀ c, (List.replicate a x ++ l ++ List.replicate b y).head? = some c → q c := by
  intro c hc
  cases a with
  | succ n =>
    simp [List.replicate_succ] at hc
    rw [← hc]
    exact hx
  | zero =>
    cases l with
    | cons u us =>
      simp at hc
      rw [← hc]
      exact hl u rfl
    | nil =>
      cases b with
      | zero => simp at hc
      | succ n =>
        simp [List.replicate_succ] at hc
        rw [← hc]
        exact hy

/-- Trimming with a test removes exactly the surrounding elements that
satisfy it, when the list in between neither starts nor ends with one. -/
theorem trim_wrap {α : Type} (p : α → Bool) (before l after : List α)
    (hbefore : ∀ c ∈ before, p c = true) (hafter : ∀ c ∈ after, p c = true)
    (hfirst : ∀ c, l.head? = some c → p c = false)
    (hlast : ∀ c, l.getLast? = some c → p c = false) :
    (((before ++ l ++ after).dropWhile p).reverse.dropWhile p).reverse = l := by
  cases l with
  | nil =>
    have hall : ∀ c ∈ before ++ [] ++ after, p c = true := by
      intro c hc
      simp only [List.append_nil, List.mem_append] at hc
      rcases hc with hc | hc
      · exact hbefore c hc
      · exact hafter c hc
    rw [List.dropWhile_eq_nil_iff.mpr hall]
    rfl
  | cons u us =>
    have hleft : (before ++ (u :: us) ++ after).dropWhile p = (u :: us) ++ after := by
      rw [List.append_assoc]
      exact dropWhile_wrap p before ((u :: us) ++ after) hbefore
        (by intro c hc; exact hfirst c (by simpa using hc))
    rw [hleft, List.reverse_append]
    rw [dropWhile_wrap p after.reverse (u :: us).reverse
      (by intro c hc; exact hafter c (List.mem_reverse.mp hc))
      (by intro c hc; rw [List.head?_reverse] at hc; exact hlast c hc)]
    exact List.reverse_reverse _

/-- What `bareLink` says about the first and the last character. -/
theorem bareLink_ends (u : String) (hu : bareLink u = true) :
    (∀ c, u.toList.head? = some c → isSpace c = false ∧ (c == '<') = false) ∧
      (∀ c, u.toList.getLast? = some c → isSpace c = false ∧ (c == '>') = false) := by
  simp only [bareLink, Bool.and_eq_true] at hu
  constructor
  · intro c hc
    have h := hu.1
    rw [hc] at h
    simpa [Option.all] using h
  · intro c hc
    have h := hu.2
    rw [hc] at h
    simpa [Option.all] using h

/-- The three steps of `sanitizeSong` on a bare link between angle brackets
and white space, on lists of characters. -/
theorem sanitize_chars (l before after : List Char) (opening closing : Nat)
    (hfirst : ∀ c, l.head? = some c → isSpace c = false ∧ (c == '<') = false)
    (hlast : ∀ c, l.getLast? = some c → isSpace c = false ∧ (c == '>') = false)
    (hbefore : ∀ c ∈ before, isSpace c = true) (hafter : ∀ c ∈ after, isSpace c = true) :
    ((((((before ++ (List.replicate opening '<' ++ l ++ List.replicate closing '>') ++
      after).dropWhile isSpace).reverse.dropWhile isSpace).reverse.dropWhile
        (fun x => x == '<')).reverse.dropWhile (fun x => x == '>')).reverse) = l := by
  have hrev : (List.replicate opening '<' ++ l ++ List.replicate closing '>').reverse =
      List.replicate closing '>' ++ l.reverse ++ List.replicate opening '<' := by
    simp [List.reverse_append, List.append_assoc]
  have hspace := trim_wrap isSpace before
    (List.replicate opening '<' ++ l ++ List.replicate closing '>') after hbefore hafter
    (head?_wrap '<' '>' (fun c => isSpace c = false) opening closing l
      (fun c hc => (hfirst c hc).1) (by decide) (by decide))
    (by
      intro c hc
      rw [← List.head?_reverse, hrev] at hc
      exact head?_wrap '>' '<' (fun c => isSpace c = false) closing opening l.reverse
        (fun c hc => (hlast c (by rw [← List.head?_reverse]; exact hc)).1)
        (by decide) (by decide) c hc)
  rw [hspace, List.append_assoc]
  have hopen := dropWhile_wrap (fun x => x == '<') (List.replicate opening '<')
    (l ++ List.replicate closing '>')
    (by
      intro c hc
      rw [List.eq_of_mem_replicate hc]
      decide)
    (head?_append_replicate '>' (fun c => (c == '<') = false) closing l
      (fun c hc => (hfirst c hc).2) (by decide))
  rw [hopen, List.reverse_append, List.reverse_replicate]
  rw [dropWhile_wrap (fun x => x == '>') (List.replicate closing '>') l.reverse
    (by
      intro c hc
      rw [List.eq_of_mem_replicate hc]
      decide)
    (by
      intro c hc
      rw [List.head?_reverse] at hc
      exact (hlast c hc).2)]
  exact List.reverse_reverse l

theorem sanitizeSong_wrapLink_eq (u : String) (before after : List Char)
    (opening closing : Nat) (hu : bareLink u = true)
    (hbefore : before.all isSpace = true) (hafter : after.all isSpace = true) :
    sanitizeSong (wrapLink before opening u closing after) = u := by
  obtain ⟨hfirst, hlast⟩ := bareLink_ends u hu
  have h := sanitize_chars u.toList before after opening closing hfirst hlast
    (List.all_eq_true.mp hbefore) (List.all_eq_true.mp hafter)
  simp only [sanitizeSong, wrapLink, TrimSpace, TrimLeft, TrimRight, String.toList] at h ⊢
  rw [h]

/-- The song that `addCommand` hands to `AddSong`, whatever the player
answers. -/
theorem addCommand_addSongCalls (mp : MusicPlayer σ) (bot : MusicBot σ) (message : Message)
    (hq : 2 < (wordsOf message).length) :
    addSongCalls (addCommand mp bot message).trace =
      addSongCalls bot.trace ++ [requestedSong (wordsOf message)] := by
  have hlen : ¬ (wordsOf message).length ≤ 2 := by omega
  simp only [addCommand, if_neg hlen, invoke]
  cases (mp.AddSong (requestedSong (wordsOf message)) bot.musicPlayer).1.2 <;>
    cases message.IsPrivate <;>
    simp [ReplyToMessage, BroadcastMessage, emit, addSongCalls, List.filterMap_append]

/-- C11: for a string `u` without white space at its ends that does not
begin with `<` and does not end with `>`, `sanitizeSong` returns exactly `u`
on `u` put between any number of `<` and any number of `>` and then between
any white space; in particular `sanitizeSong u = u`; and on a message whose
third word is such a wrapped link, `add` invokes `AddSong` with the song
whose `Path` is `u`. -/
theorem sanitizeSong_bare_link (u : String) (before after : List Char)
    (opening closing : Nat) (hu : bareLink u = true)
    (hbefore : before.all isSpace = true) (hafter : after.all isSpace = true) :
    sanitizeSong (wrapLink before opening u closing after) = u ∧
      sanitizeSong u = u ∧
      ∀ (mp : MusicPlayer σ) (bot : MusicBot σ) (message : Message),
        2 < (wordsOf message).length →
        (wordsOf message).getD 2 "" = wrapLink before opening u closing after →
        addSongCalls (addCommand mp bot message).trace =
          addSongCalls bot.trace ++ [{ Path := u }] := by
  have hwrapped := sanitizeSong_wrapLink_eq u before after opening closing hu hbefore hafter
  refine ⟨hwrapped, ?_, ?_⟩
  · have hself := sanitizeSong_wrapLink_eq u [] [] 0 0 hu rfl rfl
    have hu0 : wrapLink [] 0 u 0 [] = u := by
      simp [wrapLink]
    rw [hu0] at hself
    exact hself
  · intro mp bot message hq hword
    rw [addCommand_addSongCalls mp bot message hq, requestedSong, hword, hwrapped]

/-- The theorem `sanitizeSong_bare_link` at a link between two pairs of
angle brackets and two blanks, alone and as the argument of `add`. -/
theorem sanitizeSong_bare_link_witness :
    sanitizeSong " <<https://example.org/a>> " = "https://example.org/a" ∧
      sanitizeSong "https://example.org/a" = "https://example.org/a" ∧
      addSongCalls (addCommand memPlayer demoBot
        (publicMessage "!music add  <<https://example.org/a>> ")).trace =
        [{ Path := "https://example.org/a" }] :=
  have h := sanitizeSong_bare_link (σ := PlayerState) "https://example.org/a" [' '] [' '] 2 2
    (by decide) (by decide) (by decide)
  ⟨h.1, h.2.1, h.2.2 memPlayer demoBot (publicMessage "!music add  <<https://example.org/a>> ")
    (by decide) (by decide)⟩

end GoMusicBot
